import Mathlib

/-!
Shallow embedding of the npi ingestion pipeline (src/parser/load_npi.py,
src/parse/load_npi.py, src/db/mongo.py, src/main.py).

Scalar cells of a pandas row are modelled by `Value`: `vnone` is a missing
value (NaN, or an absent key, for which `Series.get` returns `None` and
`pd.isna` is true); `vstr` a string cell; `vint` an int cell; `vfloat n`
the integral float `n.0` (the NPPES numeric columns hold integer-valued
floats or NaN, so integral floats suffice for every operation the code
performs on them).  Python string operations used by the code are embedded
as executable functions on `List Char` (ASCII case folding, as all header
and code material in this pipeline is ASCII).
-/

/-- Scalar value of one dataframe cell. -/
inductive Value where
  | vnone : Value
  | vstr (s : String) : Value
  | vint (n : Int) : Value
  | vfloat (n : Int) : Value
deriving DecidableEq, Repr

/-- Embedding of `pd.isna` on a cell. -/
def pdIsna : Value → Bool
  | .vnone => true
  | _ => false

/-- Embedding of Python `str()` on a cell (`str(5.0) = "5.0"`, `str(5) = "5"`). -/
def pyStr : Value → String
  | .vnone => "None"
  | .vstr s => s
  | .vint n => toString n
  | .vfloat n => toString n ++ ".0"

/-- Python ASCII whitespace characters, as matched by `str.strip()` and `\s`
(code points 32, 9, 10, 13, 11, 12). -/
def pyIsSpace (c : Char) : Bool :=
  c.toNat = 32 || c.toNat = 9 || c.toNat = 10 || c.toNat = 13 || c.toNat = 11 || c.toNat = 12

/-- ASCII decimal digit test (`str.isdigit` on the ASCII strings this code handles). -/
def isAsciiDigit (c : Char) : Bool :=
  48 ≤ c.toNat && c.toNat ≤ 57

/-- Numeric value of a digit list, most significant first. -/
def digitsToNat (l : List Char) : Nat :=
  l.foldl (fun acc c => acc * 10 + (c.toNat - '0'.toNat)) 0

/-- Embedding of Python `str.isdigit` for ASCII strings: nonempty and all digits. -/
def pyIsdigit (s : String) : Bool :=
  !s.data.isEmpty && s.data.all isAsciiDigit

/-- Strip of leading and trailing characters satisfying `p` (Python `str.strip`). -/
def stripChars (p : Char → Bool) (l : List Char) : List Char :=
  (l.rdropWhile p).dropWhile p

/-- Embedding of Python `str.strip()` (whitespace strip) on a string. -/
def pyStrip (s : String) : String :=
  ⟨stripChars pyIsSpace s.data⟩

/-- Embedding of Python `int(string)`: optional sign around a nonempty digit
run, surrounding whitespace allowed; `none` models the `ValueError` raise. -/
def pyIntOfString (s : String) : Option Int :=
  match stripChars pyIsSpace s.data with
  | '-' :: ds => if !ds.isEmpty && ds.all isAsciiDigit then some (-(digitsToNat ds : Int)) else none
  | '+' :: ds => if !ds.isEmpty && ds.all isAsciiDigit then some (digitsToNat ds : Int) else none
  | ds => if !ds.isEmpty && ds.all isAsciiDigit then some (digitsToNat ds : Int) else none

/-- Embedding of Python `int(value)` on a cell; `Except` carries the
`ValueError`/`TypeError` message of a failing conversion. -/
def pyInt : Value → Except String Int
  | .vnone => .error "int() argument must not be None"
  | .vint n => .ok n
  | .vfloat n => .ok n
  | .vstr s =>
      match pyIntOfString s with
      | some n => .ok n
      | none => .error ("invalid literal for int() with base 10: " ++ s)

/-- Python `==` between a cell and a string literal. -/
def valueEqStr (v : Value) (s : String) : Bool :=
  match v with
  | .vstr t => t = s
  | _ => false

/-- Python `==` between a cell and the float literal `1.0` (used for
`entity_type_code == 1.0`; Python numeric equality crosses int/float). -/
def valueEqOne : Value → Bool
  | .vint n => n = 1
  | .vfloat n => n = 1
  | _ => false

/-- Row of a dataframe: an association list from (normalized) column name to
cell value, in column order. -/
abbrev Row := List (String × Value)

/-- Embedding of `pandas.Series.get(key)`: the cell when the key is present,
else Python `None`, which `pd.isna` treats as missing — modelled as `vnone`. -/
def rowGet (r : Row) (k : String) : Value :=
  match List.lookup k r with
  | some v => v
  | none => .vnone

/-- Dataframe: the normalized column names and the rows. -/
structure DataFrame where
  cols : List String
  rows : List Row

/-!
Column normalization.  `src/parser/load_npi.py` `normalize_columns` applies,
in order: `.str.lower()`; regex `\s+` → `_`; regex `[()]` → deletion; regex
`[^a-zA-Z0-9_]` → `_`; regex `_+` → `_`; `.str.strip('_')`.  The simpler
`src/parse/load_npi.py` `normalize_columns` applies only the first three.
Regex run replacement (each maximal run of matching characters replaced by
one replacement character) is embedded by `collapseRunsAux`, whose flag
records whether the previous character belonged to a run.
-/

/-- Replacement of every maximal run of characters satisfying `p` by the single
character `rep`; the Bool argument is true inside a run. -/
def collapseRunsAux (p : Char → Bool) (rep : Char) : Bool → List Char → List Char
  | _, [] => []
  | prev, c :: rest =>
    if p c then
      if prev then collapseRunsAux p rep true rest
      else rep :: collapseRunsAux p rep true rest
    else c :: collapseRunsAux p rep false rest

/-- Step 1 of `normalize_columns`: `.str.lower()` (ASCII case folding). -/
def lowerStep (l : List Char) : List Char := l.map Char.toLower

/-- Step 2 of `normalize_columns`: regex `\s+` replaced by one underscore. -/
def wsStep (l : List Char) : List Char := collapseRunsAux pyIsSpace '_' false l

/-- Parenthesis character (code points 40 and 41), the class the regex `[()]` deletes. -/
def isParen (c : Char) : Bool := c.toNat = 40 || c.toNat = 41

/-- Step 3 of `normalize_columns`: regex `[()]` deleted. -/
def parenStep (l : List Char) : List Char := l.filter (fun c => !isParen c)

/-- Character class `[a-zA-Z0-9_]`, the complement of what step 4 replaces. -/
def isWordChar (c : Char) : Bool :=
  (97 ≤ c.toNat && c.toNat ≤ 122) || (65 ≤ c.toNat && c.toNat ≤ 90) ||
    (48 ≤ c.toNat && c.toNat ≤ 57) || c.toNat = 95

/-- Step 4 of `normalize_columns`: regex `[^a-zA-Z0-9_]` replaced by underscore. -/
def alnumStep (l : List Char) : List Char := l.map (fun c => if isWordChar c then c else '_')

/-- Underscore test, the class of the regex `_+` of step 5. -/
def isUnd (c : Char) : Bool := c.toNat = 95

/-- Step 5 of `normalize_columns`: regex `_+` collapsed to one underscore. -/
def undStep (l : List Char) : List Char := collapseRunsAux isUnd '_' false l

/-- Normalization of one header by `src/parser/load_npi.py normalize_columns`:
lowercase, whitespace runs to `_`, parens deleted, non-word characters to `_`,
underscore runs collapsed, edge underscores stripped. -/
def normalizeHeader (s : String) : String :=
  ⟨stripChars isUnd (undStep (alnumStep (parenStep (wsStep (lowerStep s.data)))))⟩

/-- Normalization of one header by `src/parse/load_npi.py normalize_columns`:
lowercase, whitespace runs to `_`, parens deleted. -/
def normalizeHeaderSimple (s : String) : String :=
  ⟨parenStep (wsStep (lowerStep s.data))⟩

/-- Rename of the keys of one row. -/
def renameRowCols (f : String → String) (r : Row) : Row :=
  r.map (fun kv => (f kv.1, kv.2))

/-- Embedding of `NPI_Load.normalize_columns` (src/parser/load_npi.py): renames
every column of the dataframe through `normalizeHeader`. -/
def normalize_columns (df : DataFrame) : DataFrame :=
  { cols := df.cols.map normalizeHeader
    rows := df.rows.map (renameRowCols normalizeHeader) }

/-!
Code lookup caches.  Python dicts are embedded as association lists in
insertion order: assignment to a present key replaces the value in place,
a fresh key is appended, and `d.update(other)` folds assignments of
`other`'s entries over `d`.
-/

/-- Python dict assignment `d[k] = v` on an association list. -/
def dictInsert (k : String) (v : α) : List (String × α) → List (String × α)
  | [] => [(k, v)]
  | (k', v') :: rest => if k' = k then (k', v) :: rest else (k', v') :: dictInsert k v rest

/-- Python `d.update(other)`: every entry of `other` assigned into `d` in order. -/
def dictUpdate (d other : List (String × α)) : List (String × α) :=
  other.foldl (fun acc kv => dictInsert kv.1 kv.2 acc) d

/-- Taxonomy cache: code → description (`self.taxonomy_descriptions`). -/
abbrev TaxCache := List (String × String)

/-- Value of one identifier-type cache entry. -/
structure IdEntry where
  code : String
  desc : String
deriving DecidableEq, Repr

/-- Identifier-type cache: raw type token → entry (`self.identifier_types`). -/
abbrev IdCache := List (String × IdEntry)

/-- Default taxonomy seed of `_load_taxonomy_cache`. -/
def defaultTaxonomies : TaxCache :=
  [("207X00000X", "Orthopaedic Surgery"), ("208D00000X", "General Practice"),
   ("207Q00000X", "Family Medicine"), ("207R00000X", "Internal Medicine"),
   ("208000000X", "Pediatrics"), ("207V00000X", "Obstetrics & Gynecology"),
   ("207T00000X", "Neurological Surgery"), ("208600000X", "Surgery"),
   ("207Y00000X", "Otolaryngology"), ("208M00000X", "Hospitalist"),
   ("364S00000X", "Clinical Nurse Specialist"), ("363L00000X", "Nurse Practitioner"),
   ("367500000X", "Nurse Anesthetist, Certified Registered"), ("374700000X", "Acupuncturist"),
   ("225100000X", "Physical Therapist"), ("103T00000X", "Psychologist"),
   ("261QP2300X", "Primary Care Clinic/Center"), ("282N00000X", "General Acute Care Hospital")]

/-- Default identifier-type seed of `_load_identifier_cache`. -/
def defaultIdentifiers : IdCache :=
  [("1", ⟨"01", "Other (non-Medicare)"⟩), ("2", ⟨"02", "Medicare UPIN"⟩),
   ("3", ⟨"03", "Medicare NSC"⟩), ("4", ⟨"04", "Medicare PIN"⟩),
   ("5", ⟨"05", "MEDICAID"⟩), ("6", ⟨"06", "Medicare OSCAR"⟩),
   ("7", ⟨"07", "TRICARE"⟩), ("8", ⟨"08", "Blue Cross Blue Shield"⟩),
   ("1.0", ⟨"01", "Other (non-Medicare)"⟩), ("2.0", ⟨"02", "Medicare UPIN"⟩),
   ("3.0", ⟨"03", "Medicare NSC"⟩), ("4.0", ⟨"04", "Medicare PIN"⟩),
   ("5.0", ⟨"05", "MEDICAID"⟩), ("6.0", ⟨"06", "Medicare OSCAR"⟩)]

/-- Embedding of `get_taxonomy_description`: cache hit on the stripped code,
else the sentinel built from the raw code. -/
def get_taxonomy_description (tax : TaxCache) (code : String) : String :=
  match List.lookup (pyStrip code) tax with
  | some d => d
  | none => "Unknown Taxonomy (" ++ code ++ ")"

/-- Embedding of `get_identifier_type`: cache hit on the stripped token,
else the sentinel entry built from the raw token. -/
def get_identifier_type (idc : IdCache) (type_code : String) : IdEntry :=
  match List.lookup (pyStrip type_code) idc with
  | some e => e
  | none => { code := "01", desc := "Unknown Type (" ++ type_code ++ ")" }

/-- First-occurrence deduplication, the order `pandas.Series.unique` keeps. -/
def uniqueFirstAux (seen : List Value) : List Value → List Value
  | [] => []
  | v :: rest =>
    if v ∈ seen then uniqueFirstAux seen rest
    else v :: uniqueFirstAux (v :: seen) rest

/-- Embedding of `df[col].dropna().unique()`: non-missing cells of the column,
deduplicated keeping first occurrences. -/
def dropnaUnique (df : DataFrame) (col : String) : List Value :=
  uniqueFirstAux [] ((df.rows.map (fun r => rowGet r col)).filter (fun v => !pdIsna v))

/-- Taxonomy code column name of slot `i`. -/
def taxonomyCodeCol (i : Nat) : String := s!"healthcare_provider_taxonomy_code_{i}"

/-- Embedding of `_extract_taxonomies_from_dataframe`: for the 15 taxonomy
slots, every distinct, non-missing, nonempty stripped code absent from the
current cache is recorded with a synthesized placeholder description. -/
def extract_taxonomies_from_dataframe (tax : TaxCache) (df : DataFrame) : TaxCache :=
  (List.range 15).foldl (fun new i =>
    let code_col := taxonomyCodeCol (i + 1)
    if code_col ∈ df.cols then
      (dropnaUnique df code_col).foldl (fun new code =>
        let code_str := pyStrip (pyStr code)
        if code_str ≠ "" ∧ (List.lookup code_str tax).isNone then
          dictInsert code_str ("Taxonomy Code " ++ code_str) new
        else new) new
    else new) []

/-- Scan of one list for the substring `.0` (Python `'.0' in s`). -/
def containsDotZero : List Char → Bool
  | [] => false
  | [_] => false
  | c :: d :: rest => (c = '.' && d = '0') || containsDotZero (d :: rest)

/-- Deletion of every (left-to-right, non-overlapping) occurrence of `.0`
(Python `s.replace('.0', '')`). -/
def removeDotZero : List Char → List Char
  | [] => []
  | [c] => [c]
  | c :: d :: rest =>
    if c = '.' && d = '0' then removeDotZero rest
    else c :: removeDotZero (d :: rest)

/-- Python format `f"{n:02d}"`: decimal digits zero-padded to width at least two. -/
def formatPad2 (n : Nat) : String :=
  if n < 10 then "0" ++ toString n else toString n

/-- Derived numeric `code` field of one absorbed identifier-type token: delete
`.0` occurrences when present, then `f"{int(float(code_num)):02d}"` when the
result is a digit string, else the default `"01"`.  (`int(float(d))` on a
digit string is its numeric value; the NPPES type tokens are 1–2 digits, well
inside the range where the float round-trip is exact.) -/
def identifierCodeField (type_str : String) : String :=
  let code_num : String :=
    if containsDotZero type_str.data then ⟨removeDotZero type_str.data⟩ else type_str
  if pyIsdigit code_num then formatPad2 (digitsToNat code_num.data) else "01"

/-- Identifier type-code column name of slot `i`. -/
def identifierTypeCol (i : Nat) : String := s!"other_provider_identifier_type_code_{i}"

/-- Embedding of `_extract_identifiers_from_dataframe`: for the 50 identifier
slots, every distinct, non-missing, nonempty stripped token absent from the
current cache is recorded with its derived code field and a placeholder
description. -/
def extract_identifiers_from_dataframe (idc : IdCache) (df : DataFrame) : IdCache :=
  (List.range 50).foldl (fun new i =>
    let type_col := identifierTypeCol (i + 1)
    if type_col ∈ df.cols then
      (dropnaUnique df type_col).foldl (fun new type_code =>
        let type_str := pyStrip (pyStr type_code)
        if type_str ≠ "" ∧ (List.lookup type_str idc).isNone then
          dictInsert type_str
            { code := identifierCodeField type_str, desc := "Identifier Type " ++ type_str } new
        else new) new
    else new) []

/-- Per-call cache growth counts returned by `update_caches_from_dataframe`. -/
structure CacheUpdateResult where
  taxonomies_added : Nat
  identifiers_added : Nat
deriving DecidableEq, Repr

/-- Embedding of `update_caches_from_dataframe`: extract unseen codes from the
batch, merge them into both caches, and report how many entries were added.
(The synchronous save of each cache file is external I/O with no effect on
the in-memory caches.) -/
def update_caches_from_dataframe (tax : TaxCache) (idc : IdCache) (df : DataFrame) :
    TaxCache × IdCache × CacheUpdateResult :=
  let newT := extract_taxonomies_from_dataframe tax df
  let newI := extract_identifiers_from_dataframe idc df
  let tax' := if newT.isEmpty then tax else dictUpdate tax newT
  let idc' := if newI.isEmpty then idc else dictUpdate idc newI
  (tax', idc',
    { taxonomies_added := if newT.isEmpty then 0 else newT.length
      identifiers_added := if newI.isEmpty then 0 else newI.length })

/-!
Date handling.  `_parse_date` embeds `datetime.strptime(s, "%m/%d/%Y")`:
per CPython's `_strptime`, `%m` matches `1[0-2]|0[1-9]|[1-9]`, `%d` matches
`3[01]|[12]\d|0[1-9]|[1-9]`, `%Y` matches exactly four digits, the match
must consume the whole string, and the `datetime` constructor then validates
the calendar date (year at least 1).  The epoch fields of
`_convert_dataframe_row_to_document` re-parse the ISO string with
`datetime.fromisoformat` (embedded for the `YYYY-MM-DD` and
`YYYY-MM-DD<sep>HH:MM:SS` shapes) and take `timestamp() * 1000`; the source
interprets the naive datetime in the system timezone, embedded here as UTC —
the claims below only concern when these fields are null.
-/

/-- Split of a character list on `/`. -/
def splitSlash : List Char → List (List Char)
  | [] => [[]]
  | c :: rest =>
    match splitSlash rest with
    | [] => [[]]
    | p :: ps => if c = '/' then [] :: p :: ps else (c :: p) :: ps

/-- Gregorian leap-year rule. -/
def isLeapYear (y : Nat) : Bool := y % 4 = 0 && (y % 100 ≠ 0 || y % 400 = 0)

/-- Day count of month `m` of year `y`. -/
def daysInMonth (y m : Nat) : Nat :=
  if m = 2 then (if isLeapYear y then 29 else 28)
  else if m = 4 || m = 6 || m = 9 || m = 11 then 30 else 31

/-- Embedding of `datetime.strptime(s, "%m/%d/%Y")`: `some (m, d, y)` on
success, `none` models the `ValueError` raise. -/
def strptimeMDY (s : String) : Option (Nat × Nat × Nat) :=
  match splitSlash s.data with
  | [ms, ds, ys] =>
    if ms.all isAsciiDigit && decide (1 ≤ ms.length) && decide (ms.length ≤ 2) &&
       ds.all isAsciiDigit && decide (1 ≤ ds.length) && decide (ds.length ≤ 2) &&
       ys.all isAsciiDigit && decide (ys.length = 4) then
      let m := digitsToNat ms
      let d := digitsToNat ds
      let y := digitsToNat ys
      if 1 ≤ m ∧ m ≤ 12 ∧ 1 ≤ d ∧ d ≤ daysInMonth y m ∧ 1 ≤ y then some (m, d, y)
      else none
    else none
  | _ => none

/-- Zero padding of a decimal number to a given width. -/
def padZeros (w : Nat) (n : Nat) : String :=
  ⟨List.replicate (w - (toString n).length) '0'⟩ ++ toString n

/-- Result of `datetime(y, m, d).isoformat()`. -/
def isoFormat (y m d : Nat) : String :=
  padZeros 4 y ++ "-" ++ padZeros 2 m ++ "-" ++ padZeros 2 d ++ "T00:00:00"

/-- Embedding of `_parse_date`: `None` for a missing value, the ISO timestamp
for an `MM/DD/YYYY` string, the raw `str()` of the value otherwise. -/
def parse_date (v : Value) : Option String :=
  match v with
  | .vnone => none
  | _ =>
    match strptimeMDY (pyStr v) with
    | some (m, d, y) => some (isoFormat y m d)
    | none => some (pyStr v)

/-- Embedding of `datetime.fromisoformat` on the shapes relevant here:
`YYYY-MM-DD`, optionally followed by a one-character separator and
`HH:MM:SS`; returns the six components, `none` models the raise. -/
def fromisoParse (l : List Char) : Option (Nat × Nat × Nat × Nat × Nat × Nat) :=
  match l with
  | [y1, y2, y3, y4, '-', m1, m2, '-', d1, d2] =>
    if [y1, y2, y3, y4, m1, m2, d1, d2].all isAsciiDigit then
      let y := digitsToNat [y1, y2, y3, y4]
      let m := digitsToNat [m1, m2]
      let d := digitsToNat [d1, d2]
      if 1 ≤ m ∧ m ≤ 12 ∧ 1 ≤ d ∧ d ≤ daysInMonth y m ∧ 1 ≤ y then some (y, m, d, 0, 0, 0)
      else none
    else none
  | [y1, y2, y3, y4, '-', m1, m2, '-', d1, d2, _, h1, h2, ':', i1, i2, ':', s1, s2] =>
    if [y1, y2, y3, y4, m1, m2, d1, d2, h1, h2, i1, i2, s1, s2].all isAsciiDigit then
      let y := digitsToNat [y1, y2, y3, y4]
      let m := digitsToNat [m1, m2]
      let d := digitsToNat [d1, d2]
      let h := digitsToNat [h1, h2]
      let mi := digitsToNat [i1, i2]
      let se := digitsToNat [s1, s2]
      if 1 ≤ m ∧ m ≤ 12 ∧ 1 ≤ d ∧ d ≤ daysInMonth y m ∧ 1 ≤ y ∧ h ≤ 23 ∧ mi ≤ 59 ∧ se ≤ 59
      then some (y, m, d, h, mi, se)
      else none
    else none
  | _ => none

/-- Days from 1970-01-01 of the civil date `(y, m, d)` (proleptic Gregorian). -/
def daysFromCivil (y m d : Nat) : Int :=
  let y' : Int := if m ≤ 2 then (y : Int) - 1 else (y : Int)
  let era : Int := (if 0 ≤ y' then y' else y' - 399) / 400
  let yoe : Int := y' - era * 400
  let mp : Int := ((m : Int) + 9) % 12
  let doy : Int := (153 * mp + 2) / 5 + (d : Int) - 1
  let doe : Int := yoe * 365 + yoe / 4 - yoe / 100 + doy
  era * 146097 + doe - 719468

/-- Millisecond epoch of the six datetime components (UTC rendering of the
source's `timestamp() * 1000`). -/
def epochMillis (y m d h mi se : Nat) : Int :=
  (daysFromCivil y m d * 86400 + (h : Int) * 3600 + (mi : Int) * 60 + (se : Int)) * 1000

/-- Embedding of the epoch derivation of `_convert_dataframe_row_to_document`
(lines 340–353): only a truthy parsed date string is attempted; `Z` characters
are removed; a `fromisoformat` failure is swallowed, leaving `None`. -/
def epochFromIso (dateOpt : Option String) : Option String :=
  match dateOpt with
  | none => none
  | some s =>
    if s ≠ "" then
      match fromisoParse (s.data.filter (fun c => c ≠ 'Z')) with
      | some (y, m, d, h, mi, se) => some (toString (epochMillis y m d h mi se))
      | none => none
    else none

/-- Success predicate of `datetime.fromisoformat(s.replace('Z', ''))`, the
reparse the epoch derivation applies to a parsed date string. -/
def fromisoOk (s : String) : Bool :=
  (fromisoParse (s.data.filter (fun c => c ≠ 'Z'))).isSome

/-!
Document assembly (`_convert_dataframe_row_to_document` and its helpers).
Mapping can raise, through `int()` on the `npi` or postal-code cells, so the
mapper returns `Except String Document`: `.error` carries the exception
message the per-row handler of `insert`/`update` records.
-/

/-- Embedding of `_convert_nan_to_none`: a missing cell becomes `None`
(`Option.none`), any other cell is kept. -/
def convert_nan_to_none (v : Value) : Option Value :=
  if pdIsna v then none else some v

/-- Python truthiness of a cell (used by `x or "--"` and `if document["number"]`). -/
def pyTruthy : Value → Bool
  | .vnone => false
  | .vstr s => s ≠ ""
  | .vint n => n ≠ 0
  | .vfloat n => n ≠ 0

/-- Embedding of `_format_phone`: missing is `None`; a float is truncated to
its integer digits; a 10-character value is hyphenated `XXX-XXX-XXXX`; any
other length passes through. -/
def format_phone (v : Value) : Option String :=
  match v with
  | .vnone => none
  | _ =>
    let phone_str : String :=
      match v with
      | .vfloat n => toString n
      | .vint n => toString n
      | .vstr s => s
      | .vnone => "None"
    if phone_str.data.length = 10 then
      some (⟨phone_str.data.take 3⟩ ++ "-" ++ ⟨(phone_str.data.drop 3).take 3⟩ ++ "-"
        ++ ⟨phone_str.data.drop 6⟩)
    else some phone_str

/-- Address sub-record of a provider document. -/
structure Address where
  country_code : Option Value
  country_name : Option String
  address_purpose : String
  address_type : String
  address_1 : Option Value
  address_2 : Option Value
  city : Option Value
  state : Option Value
  postal_code : Option String
  telephone_number : Option String
  fax_number : Option String
deriving DecidableEq, Repr

/-- Evaluation of `str(int(v))` guarded by `if not pd.isna(v)` (the postal
code fields): `None` when missing, the integer digits otherwise, propagating
the `int()` raise. -/
def postalField (v : Value) : Except String (Option String) :=
  if pdIsna v then .ok none
  else
    match pyInt v with
    | .ok n => .ok (some (toString n))
    | .error e => .error e

/-- Mailing-address block of `_extract_addresses` (built only when the first
mailing address line is present). -/
def mailingAddress (r : Row) : Except String Address :=
  match postalField (rowGet r "provider_business_mailing_address_postal_code") with
  | .error e => .error e
  | .ok postal => .ok
    { country_code :=
        convert_nan_to_none
          (rowGet r "provider_business_mailing_address_country_code_if_outside_u.s.")
      country_name :=
        if valueEqStr (rowGet r "provider_business_mailing_address_country_code_if_outside_u.s.")
            "US" then some "United States"
        else none
      address_purpose := "MAILING"
      address_type := "DOM"
      address_1 := convert_nan_to_none (rowGet r "provider_first_line_business_mailing_address")
      address_2 := convert_nan_to_none (rowGet r "provider_second_line_business_mailing_address")
      city := convert_nan_to_none (rowGet r "provider_business_mailing_address_city_name")
      state := convert_nan_to_none (rowGet r "provider_business_mailing_address_state_name")
      postal_code := postal
      telephone_number :=
        format_phone (rowGet r "provider_business_mailing_address_telephone_number")
      fax_number := format_phone (rowGet r "provider_business_mailing_address_fax_number") }

/-- Practice-location block of `_extract_addresses` (built only when the first
practice-location address line is present). -/
def locationAddress (r : Row) : Except String Address :=
  match postalField (rowGet r "provider_business_practice_location_address_postal_code") with
  | .error e => .error e
  | .ok postal => .ok
    { country_code :=
        convert_nan_to_none
          (rowGet r "provider_business_practice_location_address_country_code_if_outside_u.s.")
      country_name :=
        if valueEqStr
            (rowGet r "provider_business_practice_location_address_country_code_if_outside_u.s.")
            "US" then some "United States"
        else none
      address_purpose := "LOCATION"
      address_type := "DOM"
      address_1 :=
        convert_nan_to_none (rowGet r "provider_first_line_business_practice_location_address")
      address_2 :=
        convert_nan_to_none (rowGet r "provider_second_line_business_practice_location_address")
      city := convert_nan_to_none (rowGet r "provider_business_practice_location_address_city_name")
      state :=
        convert_nan_to_none (rowGet r "provider_business_practice_location_address_state_name")
      postal_code := postal
      telephone_number :=
        format_phone (rowGet r "provider_business_practice_location_address_telephone_number")
      fax_number :=
        format_phone (rowGet r "provider_business_practice_location_address_fax_number") }

/-- Embedding of `_extract_addresses`: the mailing block, then the
practice-location block, each included only when its first address line is
present; a raise in the mailing block precedes one in the location block. -/
def extract_addresses (r : Row) : Except String (List Address) :=
  match
    (if pdIsna (rowGet r "provider_first_line_business_mailing_address") then .ok []
     else (mailingAddress r).map (fun a => [a]) : Except String (List Address)),
    (if pdIsna (rowGet r "provider_first_line_business_practice_location_address") then .ok []
     else (locationAddress r).map (fun a => [a]) : Except String (List Address)) with
  | .error e, _ => .error e
  | .ok _, .error e => .error e
  | .ok a1, .ok a2 => .ok (a1 ++ a2)

/-- Taxonomy sub-record of a provider document. -/
structure Taxonomy where
  code : String
  taxonomy_group : Option Value
  desc : String
  state : Option Value
  license : Option Value
  primary : Bool
deriving DecidableEq, Repr

/-- Embedding of `_extract_taxonomies`: slots 1–15 contribute, in slot order,
one entry per present taxonomy code. -/
def extract_taxonomies (tax : TaxCache) (r : Row) : List Taxonomy :=
  (List.range 15).foldl (fun acc i =>
    let idx := i + 1
    if !pdIsna (rowGet r (taxonomyCodeCol idx)) then
      let code := pyStrip (pyStr (rowGet r (taxonomyCodeCol idx)))
      acc ++ [{ code := code
                taxonomy_group :=
                  convert_nan_to_none (rowGet r s!"healthcare_provider_taxonomy_group_{idx}")
                desc := get_taxonomy_description tax code
                state :=
                  convert_nan_to_none (rowGet r s!"provider_license_number_state_code_{idx}")
                license := convert_nan_to_none (rowGet r s!"provider_license_number_{idx}")
                primary :=
                  valueEqStr (rowGet r s!"healthcare_provider_primary_taxonomy_switch_{idx}")
                    "Y" }]
    else acc) []

/-- Identifier sub-record of a provider document. -/
structure Identifier where
  code : String
  desc : String
  issuer : Option Value
  identifier : Option Value
  state : Option Value
deriving DecidableEq, Repr

/-- Embedding of `_extract_identifiers`: slots 1–50 contribute, in slot order,
one entry per present identifier value, with the type looked up in the cache
(token `"1"` when the type cell is missing). -/
def extract_identifiers (idc : IdCache) (r : Row) : List Identifier :=
  (List.range 50).foldl (fun acc i =>
    let idx := i + 1
    if !pdIsna (rowGet r s!"other_provider_identifier_{idx}") then
      let type_code :=
        if !pdIsna (rowGet r (identifierTypeCol idx)) then pyStr (rowGet r (identifierTypeCol idx))
        else "1"
      let info := get_identifier_type idc type_code
      acc ++ [{ code := info.code
                desc := info.desc
                issuer := convert_nan_to_none (rowGet r s!"other_provider_identifier_issuer_{idx}")
                identifier := convert_nan_to_none (rowGet r s!"other_provider_identifier_{idx}")
                state := convert_nan_to_none (rowGet r s!"other_provider_identifier_state_{idx}") }]
    else acc) []

/-- Flat demographic/registration record of `_extract_basic_info`. -/
structure BasicInfo where
  first_name : Option Value
  last_name : Option Value
  middle_name : Option Value
  credential : Option Value
  sole_proprietor : String
  sex : Option Value
  enumeration_date : Option String
  last_updated : Option String
  status : String
  name_prefix : Value
  name_suffix : Value
  organization_name : Option Value
deriving DecidableEq, Repr

/-- Python `x or "--"`: `x` when truthy, else the placeholder. -/
def orPlaceholder (v : Option Value) : Value :=
  match v with
  | none => .vstr "--"
  | some w => if pyTruthy w then w else .vstr "--"

/-- Embedding of `_extract_basic_info`. -/
def extract_basic_info (r : Row) : BasicInfo :=
  { first_name := convert_nan_to_none (rowGet r "provider_first_name")
    last_name := convert_nan_to_none (rowGet r "provider_last_name_legal_name")
    middle_name := convert_nan_to_none (rowGet r "provider_middle_name")
    credential := convert_nan_to_none (rowGet r "provider_credential_text")
    sole_proprietor := if valueEqStr (rowGet r "is_sole_proprietor") "Y" then "YES" else "NO"
    sex := convert_nan_to_none (rowGet r "provider_sex_code")
    enumeration_date := parse_date (rowGet r "provider_enumeration_date")
    last_updated := parse_date (rowGet r "last_update_date")
    status := if pdIsna (rowGet r "npi_deactivation_date") then "A" else "D"
    name_prefix := orPlaceholder (convert_nan_to_none (rowGet r "provider_name_prefix_text"))
    name_suffix := orPlaceholder (convert_nan_to_none (rowGet r "provider_name_suffix_text"))
    organization_name :=
      convert_nan_to_none (rowGet r "provider_organization_name_legal_business_name") }

/-- Provider document, the output unit of the Document Mapper.  The fields
`practiceLocations`, `endpoints` and `other_names` are reserved and always
empty in this version. -/
structure Document where
  created_epoch : Option String
  enumeration_type : String
  last_updated_epoch : Option String
  number : Option String
  addresses : List Address
  practiceLocations : List Value
  basic : BasicInfo
  taxonomies : List Taxonomy
  identifiers : List Identifier
  endpoints : List Value
  other_names : List Value
deriving DecidableEq, Repr

/-- Evaluation of the `number` field: `str(int(row.get('npi')))` when the
cell is present, `None` when missing, propagating the `int()` raise. -/
def numberField (r : Row) : Except String (Option String) :=
  if !pdIsna (rowGet r "npi") then
    match pyInt (rowGet r "npi") with
    | .ok n => .ok (some (toString n))
    | .error e => .error e
  else .ok none

/-- Embedding of `_convert_dataframe_row_to_document`; a raise while
computing `number` precedes one while extracting the addresses, matching the
evaluation order of the document literal. -/
def convert_dataframe_row_to_document (tax : TaxCache) (idc : IdCache) (r : Row) :
    Except String Document :=
  let entity_type := rowGet r "entity_type_code"
  let enum_date := parse_date (rowGet r "provider_enumeration_date")
  let update_date := parse_date (rowGet r "last_update_date")
  match numberField r, extract_addresses r with
  | .error e, _ => .error e
  | .ok _, .error e => .error e
  | .ok number, .ok addresses => .ok
    { created_epoch := epochFromIso enum_date
      enumeration_type := if valueEqOne entity_type then "NPI-1" else "NPI-2"
      last_updated_epoch := epochFromIso update_date
      number := number
      addresses := addresses
      practiceLocations := []
      basic := extract_basic_info r
      taxonomies := extract_taxonomies tax r
      identifiers := extract_identifiers idc r
      endpoints := []
      other_names := [] }

/-!
Store boundary.  Modelled from the spec: the destination document store is an
external collaborator excluded from the source (spec sections 1 and 6) — the
repository only calls it.  Spec section 6 requires a unique index on `number`,
unordered bulk insert, replace-one-by-filter with no upsert returning a
matched count, and find-one; spec section 4.6 says a duplicate key "poisons
the whole [bulk] call", so the bulk insert is all-or-nothing here, and a
one-document insert fails exactly on a duplicate-key conflict.
-/

/-- Document store state: the stored documents in insertion order. -/
abbrev Store := List Document

/-- Modelled from the spec: `collection.insert_one` against the unique index
on `number` — fails exactly when a stored document already carries this key. -/
def insertOne (st : Store) (d : Document) : Except String Store :=
  if st.any (fun d' => d'.number == d.number) then .error "E11000 duplicate key error"
  else .ok (st ++ [d])

/-- Modelled from the spec: `collection.insert_many(documents, ordered=False)`
— all documents stored when no key conflicts, the whole call failing (with no
effect) when one does. -/
def insertManyUnordered (st : Store) (ds : List Document) : Except String Store :=
  ds.foldlM insertOne st

/-- Modelled from the spec: `collection.replace_one({"number": key}, d,
upsert=False)` — replaces the first stored document keyed `key` and returns
the new store with the matched count; with no match the store is returned as
is, matched count zero, and nothing is created. -/
def replaceOneByNumber : Store → String → Document → Store × Nat
  | [], _, _ => ([], 0)
  | d' :: rest, key, d =>
    if d'.number == some key then (d :: rest, 1)
    else
      let (st', n) := replaceOneByNumber rest key d
      (d' :: st', n)

/-- Embedding of `find_by_npi`: `find_one({"number": str(npi)})`. -/
def find_by_npi (st : Store) (npi : String) : Option Document :=
  st.find? (fun d => d.number == some npi)

/-!
Ingestion operations (`NPI_Mongo.insert`, `NPI_Mongo.update`).  Row indices
are the 0-based positions `df.iterrows` yields for a freshly read chunk.
-/

/-- Truthiness of `document["number"]` (`None` or a string). -/
def numberTruthy : Option String → Bool
  | none => false
  | some s => s ≠ ""

/-- Rendering of `document.get("number")` inside an f-string. -/
def numberText : Option String → String
  | none => "None"
  | some s => s

/-- Mapping loop of `insert` (lines 381–389): each row converted
independently; a document is kept only when its `number` is truthy, a row
with a missing NPI or a raised conversion error is recorded and skipped. -/
def processRowsAux (tax : TaxCache) (idc : IdCache) : Nat → List Row → List Document × List String
  | _, [] => ([], [])
  | i, r :: rest =>
    let (ds, es) := processRowsAux tax idc (i + 1) rest
    match convert_dataframe_row_to_document tax idc r with
    | .ok d =>
      if numberTruthy d.number then (d :: ds, es)
      else (ds, (s!"Row {i}: Missing NPI number") :: es)
    | .error e => (ds, (s!"Row {i}: " ++ e) :: es)

/-- Fallback loop of `insert` (lines 398–404): one `insert_one` per document,
counting successes and recording one error per individual failure. -/
def fallbackInsert (st : Store) : List Document → Nat × List String × Store
  | [] => (0, [], st)
  | d :: rest =>
    match insertOne st d with
    | .ok st1 =>
      let (n, es, st') := fallbackInsert st1 rest
      (n + 1, es, st')
    | .error e =>
      let (n, es, st') := fallbackInsert st rest
      (n, ("NPI " ++ numberText d.number ++ ": " ++ e) :: es, st')

/-- Structured result of `insert`. -/
structure InsertResult where
  success : Bool
  inserted_count : Nat
  total_processed : Nat
  errors : List String
  cache_updates : CacheUpdateResult
deriving DecidableEq, Repr

/-- Embedding of `NPI_Mongo.insert`: optional cache refresh, per-row mapping,
one unordered bulk insert with the per-document fallback when the bulk call
fails, and the aggregated report. -/
def NPI_Mongo.insert (tax : TaxCache) (idc : IdCache) (df : DataFrame) (update_cache : Bool)
    (st : Store) : InsertResult × Store × TaxCache × IdCache :=
  let tcu :=
    if update_cache then update_caches_from_dataframe tax idc df
    else (tax, idc, { taxonomies_added := 0, identifiers_added := 0 })
  let pr := processRowsAux tcu.1 tcu.2.1 0 df.rows
  let w :=
    if pr.1.isEmpty then ((0 : Nat), ([] : List String), st)
    else
      match insertManyUnordered st pr.1 with
      | .ok stOk => (pr.1.length, [], stOk)
      | .error _ => fallbackInsert st pr.1
  ({ success := true
     inserted_count := w.1
     total_processed := df.rows.length
     errors := pr.2 ++ w.2.1
     cache_updates := tcu.2.2 }, w.2.2, tcu.1, tcu.2.1)

/-- Structured result of `update`. -/
structure UpdateResult where
  success : Bool
  updated_count : Nat
  not_found_count : Nat
  total_processed : Nat
  errors : List String
  cache_updates : CacheUpdateResult
deriving DecidableEq, Repr

/-- Row loop of `update` (lines 446–467): replace-by-key with no upsert,
counting replaced and not-found documents and recording per-row errors. -/
def updateRowsAux (tax : TaxCache) (idc : IdCache) :
    Nat → List Row → Store → Nat × Nat × List String × Store
  | _, [], st => (0, 0, [], st)
  | i, r :: rest, st =>
    match convert_dataframe_row_to_document tax idc r with
    | .error e =>
      let (u, nf, es, st') := updateRowsAux tax idc (i + 1) rest st
      (u, nf, (s!"Row {i}: " ++ e) :: es, st')
    | .ok d =>
      if numberTruthy d.number then
        let (st1, matched) := replaceOneByNumber st (numberText d.number) d
        let (u, nf, es, st') := updateRowsAux tax idc (i + 1) rest st1
        if matched > 0 then (u + 1, nf, es, st') else (u, nf + 1, es, st')
      else
        let (u, nf, es, st') := updateRowsAux tax idc (i + 1) rest st
        (u, nf, (s!"Row {i}: Missing NPI number") :: es, st')

/-- Embedding of `NPI_Mongo.update`: optional cache refresh, then for every
valid document a replace-by-key on `number` with upsert disabled, and the
aggregated report. -/
def NPI_Mongo.update (tax : TaxCache) (idc : IdCache) (df : DataFrame) (update_cache : Bool)
    (st : Store) : UpdateResult × Store × TaxCache × IdCache :=
  let tcu :=
    if update_cache then update_caches_from_dataframe tax idc df
    else (tax, idc, { taxonomies_added := 0, identifiers_added := 0 })
  let u := updateRowsAux tcu.1 tcu.2.1 0 df.rows st
  ({ success := true
     updated_count := u.1
     not_found_count := u.2.1
     total_processed := df.rows.length
     errors := u.2.2.1
     cache_updates := tcu.2.2 }, u.2.2.2, tcu.1, tcu.2.1)

/-- Complement of the ASCII uppercase range (code points 65-90). -/
def notUpper (c : Char) : Bool := !(65 ≤ c.toNat && c.toNat ≤ 90)

/-- Canonical characters of a fully normalized header: lowercase letters,
digits, and the underscore. -/
def isCanonChar (c : Char) : Bool := isWordChar c && notUpper c

/-- Absence of two adjacent characters of class `p`. -/
abbrev NoRun (p : Char → Bool) (l : List Char) : Prop :=
  List.Chain' (fun c d => ¬(p c = true ∧ p d = true)) l

/-- Scan for two adjacent underscores (a repeated underscore). -/
def hasUndRun : List Char → Bool
  | [] => false
  | [_] => false
  | c :: d :: rest => (isUnd c && isUnd d) || hasUndRun (d :: rest)

/-- Canonical form of a fully normalized header: canonical characters only, no
underscore run, no edge underscore. -/
def CanonList (l : List Char) : Prop :=
  (∀ c ∈ l, isCanonChar c = true) ∧ NoRun isUnd l ∧
    (∀ c, l.head? = some c → isUnd c = false) ∧
    (∀ c, l.getLast? = some c → isUnd c = false)

/-- Canonical form of a simply normalized header: no uppercase, no whitespace,
no parenthesis. -/
def CanonSimpleList (l : List Char) : Prop :=
  ∀ c ∈ l, notUpper c = true ∧ pyIsSpace c = false ∧ isParen c = false

/-!
Helper lemmas shared by the claim theorems.
-/

/-- Invariant preservation along a left fold. -/
theorem foldl_preserve {α β : Type} {P : α → Prop} {f : α → β → α} :
    ∀ (l : List β) (a : α), P a → (∀ x y, P x → y ∈ l → P (f x y)) → P (l.foldl f a)
  | [], _, ha, _ => ha
  | b :: l, a, ha, hf =>
    foldl_preserve l (f a b) (hf a b ha (List.mem_cons_self b l))
      (fun x y hx hy => hf x y hx (List.mem_cons_of_mem b hy))

/-- Unfolding of one lookup step. -/
theorem lookup_cons {α : Type} (q k : String) (v : α) (l : List (String × α)) :
    List.lookup q ((k, v) :: l) = if q = k then some v else List.lookup q l := by
  by_cases h : q = k
  · subst h; simp [List.lookup]
  · simp [List.lookup, beq_eq_false_iff_ne.mpr h, h]

/-- Lookup after a dict assignment. -/
theorem dictInsert_lookup {α : Type} (q k : String) (v : α) :
    ∀ d : List (String × α),
      List.lookup q (dictInsert k v d) = if q = k then some v else List.lookup q d
  | [] => by simp [dictInsert, lookup_cons]
  | (k', v') :: rest => by
    by_cases h1 : k' = k
    · subst h1
      by_cases h2 : q = k' <;> simp [dictInsert, lookup_cons, h2]
    · by_cases h2 : q = k'
      · simp [dictInsert, lookup_cons, h1, h2]
      · simp [dictInsert, lookup_cons, h1, h2, dictInsert_lookup q k v rest]

/-- Keys of an association list with no binding for `k` all differ from `k`. -/
theorem lookup_none_keys {α : Type} (k : String) :
    ∀ d : List (String × α), List.lookup k d = none → ∀ kv ∈ d, kv.1 ≠ k
  | [], _, kv, hm => absurd hm (List.not_mem_nil kv)
  | (k', v') :: rest, h, kv, hm => by
    rw [lookup_cons] at h
    by_cases hk : k = k'
    · rw [if_pos hk] at h; exact absurd h (by simp)
    · rw [if_neg hk] at h
      rcases List.mem_cons.mp hm with h1 | h1
      · subst h1; exact fun hc => hk hc.symm
      · exact lookup_none_keys k rest h kv h1

/-- Python `d.update(other)` leaves untouched every key that `other` does not bind. -/
theorem dictUpdate_lookup_fresh {α : Type} (k : String) :
    ∀ (other d : List (String × α)), (∀ kv ∈ other, kv.1 ≠ k) →
      List.lookup k (dictUpdate d other) = List.lookup k d
  | [], _, _ => rfl
  | kv :: rest, d, h => by
    have step : List.lookup k (dictInsert kv.1 kv.2 d) = List.lookup k d := by
      rw [dictInsert_lookup]
      exact if_neg (fun hk => h kv (List.mem_cons_self kv rest) hk.symm)
    have tail := dictUpdate_lookup_fresh k rest (dictInsert kv.1 kv.2 d)
      (fun kv' h' => h kv' (List.mem_cons_of_mem kv h'))
    calc List.lookup k (dictUpdate d (kv :: rest))
        = List.lookup k (dictUpdate (dictInsert kv.1 kv.2 d) rest) := rfl
      _ = List.lookup k (dictInsert kv.1 kv.2 d) := tail
      _ = List.lookup k d := step

/-- Codes absorbed by the taxonomy extraction are always absent from the
current cache. -/
theorem extract_tax_fresh (tax : TaxCache) (df : DataFrame) (k : String)
    (hk : (List.lookup k tax).isSome) :
    List.lookup k (extract_taxonomies_from_dataframe tax df) = none := by
  unfold extract_taxonomies_from_dataframe
  apply foldl_preserve (P := fun new => List.lookup k new = none)
  · rfl
  · intro acc i hacc _
    by_cases hcol : taxonomyCodeCol (i + 1) ∈ df.cols
    · rw [if_pos hcol]
      apply foldl_preserve (P := fun new => List.lookup k new = none) _ _ hacc
      intro acc' code hacc' _
      by_cases hc : pyStrip (pyStr code) ≠ "" ∧
          (List.lookup (pyStrip (pyStr code)) tax).isNone
      · rw [if_pos hc, dictInsert_lookup]
        rw [if_neg ?hne]
        · exact hacc'
        case hne =>
          intro hkc
          rw [hkc] at hk
          rw [Option.isNone_iff_eq_none.mp hc.2] at hk
          exact absurd hk (by simp)
      · rw [if_neg hc]; exact hacc'
    · rw [if_neg hcol]; exact hacc

/-- Tokens absorbed by the identifier extraction are always absent from the
current cache. -/
theorem extract_id_fresh (idc : IdCache) (df : DataFrame) (k : String)
    (hk : (List.lookup k idc).isSome) :
    List.lookup k (extract_identifiers_from_dataframe idc df) = none := by
  unfold extract_identifiers_from_dataframe
  apply foldl_preserve (P := fun new => List.lookup k new = none)
  · rfl
  · intro acc i hacc _
    by_cases hcol : identifierTypeCol (i + 1) ∈ df.cols
    · rw [if_pos hcol]
      apply foldl_preserve (P := fun new => List.lookup k new = none) _ _ hacc
      intro acc' code hacc' _
      by_cases hc : pyStrip (pyStr code) ≠ "" ∧
          (List.lookup (pyStrip (pyStr code)) idc).isNone
      · rw [if_pos hc, dictInsert_lookup]
        rw [if_neg ?hne]
        · exact hacc'
        case hne =>
          intro hkc
          rw [hkc] at hk
          rw [Option.isNone_iff_eq_none.mp hc.2] at hk
          exact absurd hk (by simp)
      · rw [if_neg hc]; exact hacc'
    · rw [if_neg hcol]; exact hacc

/-- C5: cache absorption by `update_caches_from_dataframe` is monotonic — a
binding present in a cache before absorbing a batch is still present, with the
same value, afterwards.  This gives both halves of the claim: the key set
after absorbing a batch is a superset of the key set before, and a code
already present is never overwritten by a synthesized placeholder. -/
theorem C5_cache_absorb_monotonic (tax : TaxCache) (idc : IdCache) (df : DataFrame) :
    (∀ k v, List.lookup k tax = some v →
      List.lookup k (update_caches_from_dataframe tax idc df).1 = some v) ∧
    (∀ k e, List.lookup k idc = some e →
      List.lookup k (update_caches_from_dataframe tax idc df).2.1 = some e) := by
  constructor
  · intro k v hkv
    show List.lookup k (if (extract_taxonomies_from_dataframe tax df).isEmpty then tax
      else dictUpdate tax (extract_taxonomies_from_dataframe tax df)) = some v
    by_cases he : (extract_taxonomies_from_dataframe tax df).isEmpty
    · rw [if_pos he]; exact hkv
    · rw [if_neg he]
      rw [dictUpdate_lookup_fresh k _ tax ?fresh]
      · exact hkv
      case fresh =>
        exact lookup_none_keys k _ (extract_tax_fresh tax df k (by simp [hkv]))
  · intro k e hke
    show List.lookup k (if (extract_identifiers_from_dataframe idc df).isEmpty then idc
      else dictUpdate idc (extract_identifiers_from_dataframe idc df)) = some e
    by_cases he : (extract_identifiers_from_dataframe idc df).isEmpty
    · rw [if_pos he]; exact hke
    · rw [if_neg he]
      rw [dictUpdate_lookup_fresh k _ idc ?fresh2]
      · exact hke
      case fresh2 =>
        exact lookup_none_keys k _ (extract_id_fresh idc df k (by simp [hke]))

/-- Witness for C5 at a concrete batch: absorbing a batch holding one unseen
taxonomy code leaves the seeded binding for `207X00000X` intact. -/
theorem C5_cache_absorb_monotonic_witness :
    List.lookup "207X00000X"
      (update_caches_from_dataframe defaultTaxonomies defaultIdentifiers
        { cols := [taxonomyCodeCol 1]
          rows := [[(taxonomyCodeCol 1, .vstr "999999999X")]] }).1
      = some "Orthopaedic Surgery" :=
  (C5_cache_absorb_monotonic defaultTaxonomies defaultIdentifiers
      { cols := [taxonomyCodeCol 1], rows := [[(taxonomyCodeCol 1, .vstr "999999999X")]] }).1
    "207X00000X" "Orthopaedic Surgery" (by decide)

/-- C8 as frozen is false on the code: for a code absent from the caches the
getters return "Unknown Taxonomy (<code>)" resp. an entry described
"Unknown Type (<code>)", never the literal "Unknown Code (<code>)". -/
theorem C8_counterexample :
    List.lookup "ZZZ" defaultTaxonomies = none ∧
    get_taxonomy_description defaultTaxonomies "ZZZ" = "Unknown Taxonomy (ZZZ)" ∧
    get_taxonomy_description defaultTaxonomies "ZZZ" ≠ "Unknown Code (ZZZ)" ∧
    List.lookup "ZZZ" defaultIdentifiers = none ∧
    get_identifier_type defaultIdentifiers "ZZZ"
      = { code := "01", desc := "Unknown Type (ZZZ)" } := by
  refine ⟨by decide, by decide, by decide, by decide, by decide⟩

/-- C8 (amended): for every code whose stripped form is absent from a cache,
the get operation returns a sentinel — "Unknown Taxonomy (<code>)" for the
taxonomy cache, and the entry with code "01" and description
"Unknown Type (<code>)" for the identifier-type cache — rather than failing. -/
theorem C8_unknown_code_sentinel (tax : TaxCache) (idc : IdCache) (code : String)
    (ht : List.lookup (pyStrip code) tax = none)
    (hi : List.lookup (pyStrip code) idc = none) :
    get_taxonomy_description tax code = "Unknown Taxonomy (" ++ code ++ ")" ∧
    get_identifier_type idc code = { code := "01", desc := "Unknown Type (" ++ code ++ ")" } := by
  unfold get_taxonomy_description get_identifier_type
  rw [ht, hi]
  exact ⟨rfl, rfl⟩

/-- Witness for the amended C8 at the concrete code `XYZ`. -/
theorem C8_unknown_code_sentinel_witness :
    get_taxonomy_description defaultTaxonomies "XYZ" = "Unknown Taxonomy (" ++ "XYZ" ++ ")" ∧
    get_identifier_type defaultIdentifiers "XYZ"
      = { code := "01", desc := "Unknown Type (" ++ "XYZ" ++ ")" } :=
  C8_unknown_code_sentinel defaultTaxonomies defaultIdentifiers "XYZ" (by decide) (by decide)

/-- Entries of the identifier extraction always carry the derived code field
and placeholder description of their own key. -/
theorem extract_id_entry_shape (idc : IdCache) (df : DataFrame) :
    ∀ k e, List.lookup k (extract_identifiers_from_dataframe idc df) = some e →
      e = { code := identifierCodeField k, desc := "Identifier Type " ++ k } := by
  unfold extract_identifiers_from_dataframe
  refine foldl_preserve
    (P := fun new : IdCache => ∀ (k : String) (e : IdEntry), List.lookup k new = some e →
      e = { code := identifierCodeField k, desc := "Identifier Type " ++ k })
    (List.range 50) [] ?_ ?_
  · intro k e he; exact absurd he (by simp [List.lookup])
  · intro acc i hacc _
    by_cases hcol : identifierTypeCol (i + 1) ∈ df.cols
    · rw [if_pos hcol]
      refine foldl_preserve
        (P := fun new : IdCache => ∀ (k : String) (e : IdEntry), List.lookup k new = some e →
          e = { code := identifierCodeField k, desc := "Identifier Type " ++ k }) _ _ hacc ?_
      intro acc' code hacc' _ k e he
      by_cases hc : pyStrip (pyStr code) ≠ "" ∧
          (List.lookup (pyStrip (pyStr code)) idc).isNone
      · rw [if_pos hc, dictInsert_lookup] at he
        by_cases hk : k = pyStrip (pyStr code)
        · rw [if_pos hk] at he
          subst hk
          exact (Option.some_injective _ he).symm
        · rw [if_neg hk] at he
          exact hacc' k e he
      · rw [if_neg hc] at he
        exact hacc' k e he
    · rw [if_neg hcol]; exact hacc

/-- Digit strings contain no `.0` substring. -/
theorem containsDotZero_of_digits :
    ∀ l : List Char, l.all isAsciiDigit = true → containsDotZero l = false
  | [], _ => rfl
  | [_], _ => rfl
  | c :: d :: rest, h => by
    have hc : isAsciiDigit c = true := by
      have := List.all_eq_true.mp h c (List.mem_cons_self c (d :: rest))
      exact this
    have htail : (d :: rest).all isAsciiDigit = true := by
      refine List.all_eq_true.mpr (fun x hx => List.all_eq_true.mp h x ?_)
      exact List.mem_cons_of_mem c hx
    have hcd : (c = '.') = False := by
      simp only [eq_iff_iff, iff_false]
      intro hcdot
      rw [hcdot] at hc
      exact absurd hc (by decide)
    simp only [containsDotZero, containsDotZero_of_digits (d :: rest) htail, Bool.or_false]
    simp [hcd]

/-- C9 as frozen is false on the code: the raw token `10.05` is not purely
numeric, yet the absorbed cache entry's code field is `105` (every `.0`
substring is deleted before the digit test), not the claimed default `01`. -/
theorem C9_counterexample :
    pyIsdigit "10.05" = false ∧
    List.lookup "10.05"
      (extract_identifiers_from_dataframe defaultIdentifiers
        { cols := [identifierTypeCol 1]
          rows := [[(identifierTypeCol 1, .vstr "10.05")]] })
      = some { code := "105", desc := "Identifier Type 10.05" } ∧
    ("105" : String) ≠ "01" := by
  refine ⟨by decide, by decide, by decide⟩

/-- C9 (amended): the code field of an absorbed identifier-type token is
computed by deleting every `.0` substring of the token and, when the result is
a digit string, formatting its numeric value zero-padded to at least two
digits, with `01` the default otherwise; in particular a purely numeric raw
token yields its own value zero-padded. -/
theorem C9_code_field (idc : IdCache) (df : DataFrame) (k : String) (e : IdEntry)
    (h : List.lookup k (extract_identifiers_from_dataframe idc df) = some e) :
    e.code = identifierCodeField k ∧
    (pyIsdigit k = true → e.code = formatPad2 (digitsToNat k.data)) := by
  have hshape := extract_id_entry_shape idc df k e h
  constructor
  · rw [hshape]
  · intro hdig
    rw [hshape]
    show identifierCodeField k = formatPad2 (digitsToNat k.data)
    unfold identifierCodeField
    have hall : k.data.all isAsciiDigit = true := by
      have h2 := hdig
      simp only [pyIsdigit, Bool.and_eq_true] at h2
      exact h2.2
    have hnd : containsDotZero k.data = false := containsDotZero_of_digits k.data hall
    rw [hnd]
    simp only [Bool.false_eq_true, if_false, hdig, if_true]

/-- Witness for the amended C9: the absorbed token `7.0` maps to code `07`. -/
theorem C9_code_field_witness :
    ({ code := "07", desc := "Identifier Type 7.0" } : IdEntry).code
      = identifierCodeField "7.0" :=
  (C9_code_field defaultIdentifiers
    { cols := [identifierTypeCol 1], rows := [[(identifierTypeCol 1, .vstr "7.0")]] }
    "7.0" { code := "07", desc := "Identifier Type 7.0" } (by decide)).1

/-- C7: `_parse_date` maps a missing value to null and `01/15/2020` to its
ISO timestamp; every unparsable non-missing value passes through as its raw
string (the function is total — it never raises); and each derived epoch
field is null whenever the parsed date is missing or not ISO-parseable. -/
theorem C7_parse_date_best_effort :
    parse_date .vnone = none ∧
    parse_date (.vstr "01/15/2020") = some "2020-01-15T00:00:00" ∧
    (∀ v : Value, v ≠ .vnone → strptimeMDY (pyStr v) = none → parse_date v = some (pyStr v)) ∧
    (∀ dopt : Option String, (dopt = none ∨ ∃ s, dopt = some s ∧ fromisoOk s = false) →
      epochFromIso dopt = none) ∧
    (∀ (tax : TaxCache) (idc : IdCache) (r : Row) (doc : Document),
      convert_dataframe_row_to_document tax idc r = .ok doc →
      doc.created_epoch = epochFromIso (parse_date (rowGet r "provider_enumeration_date")) ∧
      doc.last_updated_epoch = epochFromIso (parse_date (rowGet r "last_update_date"))) := by
  refine ⟨rfl, by decide, ?_, ?_, ?_⟩
  · intro v hv hstrp
    cases v with
    | vnone => exact absurd rfl hv
    | vstr s => simp [parse_date, hstrp]
    | vint n => simp [parse_date, hstrp]
    | vfloat n => simp [parse_date, hstrp]
  · intro dopt hd
    rcases hd with rfl | ⟨s, rfl, hs⟩
    · rfl
    · have h1 : fromisoParse (List.filter (fun c => !decide (c = 'Z')) s.data) = none := by
        cases hfp : fromisoParse (List.filter (fun c => !decide (c = 'Z')) s.data) with
        | none => rfl
        | some t =>
          unfold fromisoOk at hs
          simp only [ne_eq, decide_not] at hs
          rw [hfp] at hs
          simp at hs
      by_cases he : s = ""
      · subst he; simp [epochFromIso]
      · simp [epochFromIso, he, h1]
  · intro tax idc r doc h
    unfold convert_dataframe_row_to_document at h
    cases hn : numberField r with
    | error e => rw [hn] at h; exact absurd h (by simp)
    | ok number =>
      cases ha : extract_addresses r with
      | error e => rw [hn, ha] at h; exact absurd h (by simp)
      | ok addrs =>
        rw [hn, ha] at h
        injection h with h'
        subst h'
        exact ⟨rfl, rfl⟩

/-- Witness for C7 at concrete inputs: the unparsable value `N/A` passes
through unchanged and yields a null epoch. -/
theorem C7_parse_date_best_effort_witness :
    parse_date (.vstr "N/A") = some (pyStr (.vstr "N/A")) ∧
    epochFromIso (some "N/A") = none ∧
    (convert_dataframe_row_to_document [] []
        [("provider_enumeration_date", .vstr "N/A")]).map Document.created_epoch = .ok none := by
  refine ⟨C7_parse_date_best_effort.2.2.1 (.vstr "N/A") (by decide) (by decide),
          C7_parse_date_best_effort.2.2.2.1 (some "N/A") (Or.inr ⟨"N/A", rfl, by decide⟩),
          ?_⟩
  have h := C7_parse_date_best_effort.2.2.2.2
  rfl

/-- Decimal digit characters are ASCII digits. -/
theorem digitChar_isDigit (m : Nat) (h : m < 10) : isAsciiDigit (Nat.digitChar m) = true := by
  interval_cases m <;> decide

/-- Decimal digit characters of nonzero digits differ from `0`. -/
theorem digitChar_ne_zero (m : Nat) (h1 : 0 < m) (h2 : m < 10) : Nat.digitChar m ≠ '0' := by
  interval_cases m <;> decide

/-- Every character the decimal printer emits is an ASCII digit. -/
theorem toDigitsCore_all_digits (f : Nat) : ∀ (n : Nat) (l : List Char),
    (∀ c ∈ l, isAsciiDigit c = true) →
    ∀ c ∈ Nat.toDigitsCore 10 f n l, isAsciiDigit c = true := by
  induction f with
  | zero =>
    intro n l hl c hc
    exact hl c (by simpa [Nat.toDigitsCore] using hc)
  | succ f ih =>
    intro n l hl c hc
    simp only [Nat.toDigitsCore] at hc
    by_cases h : n / 10 = 0
    · rw [if_pos h] at hc
      rcases List.mem_cons.mp hc with h1 | h1
      · rw [h1]; exact digitChar_isDigit (n % 10) (Nat.mod_lt _ (by norm_num))
      · exact hl c h1
    · rw [if_neg h] at hc
      refine ih (n / 10) (Nat.digitChar (n % 10) :: l) ?_ c hc
      intro c' hc'
      rcases List.mem_cons.mp hc' with h1 | h1
      · rw [h1]; exact digitChar_isDigit (n % 10) (Nat.mod_lt _ (by norm_num))
      · exact hl c' h1

/-- The leading character the decimal printer emits for a positive number is
never the digit `0` (given enough fuel). -/
theorem toDigitsCore_head_ne_zero (f : Nat) : ∀ (n : Nat) (l : List Char), 0 < n → n < f →
    (Nat.toDigitsCore 10 f n l).head? ≠ some '0' := by
  induction f with
  | zero => intro n l h1 h2; omega
  | succ f ih =>
    intro n l h1 h2
    simp only [Nat.toDigitsCore]
    by_cases h : n / 10 = 0
    · rw [if_pos h]
      intro hcon
      simp only [List.head?, Option.some.injEq] at hcon
      have hlt : n < 10 := by omega
      have hmod : n % 10 = n := Nat.mod_eq_of_lt hlt
      exact digitChar_ne_zero (n % 10) (by omega) (Nat.mod_lt _ (by norm_num)) hcon
    · rw [if_neg h]
      exact ih (n / 10) _ (Nat.pos_of_ne_zero h) (by omega)

/-- The decimal rendering of a natural number is a digit string with no
leading zero (except for `0` itself). -/
theorem natRepr_digit_string (n : Nat) :
    (Nat.repr n).data.all isAsciiDigit = true ∧
    (0 < n → (Nat.repr n).data.head? ≠ some '0') := by
  have hdata : (Nat.repr n).data = Nat.toDigitsCore 10 (n + 1) n [] := rfl
  constructor
  · refine List.all_eq_true.mpr (fun c hc => ?_)
    rw [hdata] at hc
    exact toDigitsCore_all_digits (n + 1) n []
      (fun c' hc' => absurd hc' (List.not_mem_nil c')) c hc
  · intro hn
    rw [hdata]
    exact toDigitsCore_head_ne_zero (n + 1) n [] hn (by omega)

/-- A store whose documents all fail a predicate contributes nothing to a
`find?` over an extension. -/
theorem find?_append_singleton {p : Document → Bool} (st : Store) (d : Document)
    (h : st.any p = false) :
    List.find? p (st ++ [d]) = if p d then some d else none := by
  rw [List.find?_append]
  rw [List.find?_eq_none.mpr (List.any_eq_false.mp h)]
  rw [Option.none_or]
  cases hp : p d <;> simp [List.find?_cons, hp]

/-- C1: a present `npi` cell holding the integral float `m.0` maps to the
document key `some (Nat.repr m)` — the canonical digit string of `m`, with no
floating-point artifact and no leading zero — the raw value `1003000126.0`
maps to the key `"1003000126"`, and a conflict-free insert stores the
document, hence its key, unchanged and retrievable by that key. -/
theorem C1_number_roundtrip (tax : TaxCache) (idc : IdCache) (r : Row) (m : Nat)
    (hnpi : rowGet r "npi" = .vfloat (m : Int))
    (doc : Document) (hconv : convert_dataframe_row_to_document tax idc r = .ok doc) :
    doc.number = some (Nat.repr m) ∧
    (Nat.repr m).data.all isAsciiDigit = true ∧
    (0 < m → (Nat.repr m).data.head? ≠ some '0') ∧
    (∀ st : Store, st.any (fun d' => d'.number == doc.number) = false →
      insertOne st doc = .ok (st ++ [doc]) ∧
      find_by_npi (st ++ [doc]) (Nat.repr m) = some doc) ∧
    (convert_dataframe_row_to_document [] [] [("npi", .vfloat 1003000126)]).map Document.number
      = .ok (some "1003000126") := by
  have hnum : numberField r = .ok (some (Nat.repr m)) := by
    unfold numberField
    rw [hnpi]
    rfl
  have hdocnum : doc.number = some (Nat.repr m) := by
    unfold convert_dataframe_row_to_document at hconv
    rw [hnum] at hconv
    cases ha : extract_addresses r with
    | error e => rw [ha] at hconv; exact absurd hconv (by simp)
    | ok addrs =>
      rw [ha] at hconv
      injection hconv with h'
      rw [← h']
  refine ⟨hdocnum, (natRepr_digit_string m).1, (natRepr_digit_string m).2, ?_, rfl⟩
  intro st hany
  constructor
  · unfold insertOne
    rw [hany]
    rfl
  · unfold find_by_npi
    rw [hdocnum] at hany
    rw [find?_append_singleton st doc hany]
    rw [hdocnum]
    simp

/-- Witness for C1 at the concrete raw value `1003000126.0` on an otherwise
empty row, inserted into the empty store. -/
theorem C1_number_roundtrip_witness :
    ({ created_epoch := none, enumeration_type := "NPI-2", last_updated_epoch := none,
       number := some "1003000126", addresses := [], practiceLocations := [],
       basic := { first_name := none, last_name := none, middle_name := none,
                  credential := none, sole_proprietor := "NO", sex := none,
                  enumeration_date := none, last_updated := none, status := "A",
                  name_prefix := .vstr "--", name_suffix := .vstr "--",
                  organization_name := none },
       taxonomies := [], identifiers := [], endpoints := [],
       other_names := [] } : Document).number = some (Nat.repr 1003000126) :=
  (C1_number_roundtrip [] [] [("npi", .vfloat 1003000126)] 1003000126 (by decide) _ rfl).1

/-- A truthy `number` is the `some` of its rendering. -/
theorem numberTruthy_some (o : Option String) (h : numberTruthy o = true) :
    o = some (numberText o) := by
  cases o with
  | none => exact absurd h (by simp [numberTruthy])
  | some s => rfl

/-- Replace-by-key on a store holding no document with the key: no match, no
change, no creation. -/
theorem replaceOne_absent (key : String) (d : Document) :
    ∀ st : Store, (∀ d' ∈ st, d'.number ≠ some key) → replaceOneByNumber st key d = (st, 0)
  | [], _ => rfl
  | d' :: rest, h => by
    have hd' : (d'.number == some key) = false :=
      beq_eq_false_iff_ne.mpr (h d' (List.mem_cons_self d' rest))
    have ih := replaceOne_absent key d rest (fun x hx => h x (List.mem_cons_of_mem d' hx))
    simp [replaceOneByNumber, hd', ih]

/-- Replace-by-key replaces exactly the first stored document with the key. -/
theorem replaceOne_present (key : String) (d old : Document) (post : Store)
    (hold : old.number = some key) :
    ∀ pre : Store, (∀ d' ∈ pre, d'.number ≠ some key) →
      replaceOneByNumber (pre ++ old :: post) key d = (pre ++ d :: post, 1)
  | [], _ => by
    simp [replaceOneByNumber, hold]
  | d' :: pre, h => by
    have hd' : (d'.number == some key) = false :=
      beq_eq_false_iff_ne.mpr (h d' (List.mem_cons_self d' pre))
    have ih := replaceOne_present key d old post hold pre
      (fun x hx => h x (List.mem_cons_of_mem d' hx))
    simp [replaceOneByNumber, hd', ih, List.append_eq]

/-- Each row of the update loop contributes to exactly one of the three
reported quantities: updated, not-found, or errors. -/
theorem updateRowsAux_counts (tax : TaxCache) (idc : IdCache) :
    ∀ (rows : List Row) (i : Nat) (st : Store),
      (updateRowsAux tax idc i rows st).1 + (updateRowsAux tax idc i rows st).2.1
        + (updateRowsAux tax idc i rows st).2.2.1.length = rows.length
  | [], _, _ => rfl
  | r :: rest, i, st => by
    cases hconv : convert_dataframe_row_to_document tax idc r with
    | error e =>
      rcases hrec : updateRowsAux tax idc (i + 1) rest st with ⟨u, nf, es, st'⟩
      have ih := updateRowsAux_counts tax idc rest (i + 1) st
      rw [hrec] at ih
      simp only at ih
      simp only [updateRowsAux, hconv, hrec, List.length_cons]
      omega
    | ok d =>
      by_cases ht : numberTruthy d.number = true
      · rcases hrep : replaceOneByNumber st (numberText d.number) d with ⟨st1, matched⟩
        rcases hrec : updateRowsAux tax idc (i + 1) rest st1 with ⟨u, nf, es, st'⟩
        have ih := updateRowsAux_counts tax idc rest (i + 1) st1
        rw [hrec] at ih
        simp only at ih
        by_cases hm : matched > 0
        · simp only [updateRowsAux, hconv, ht, if_true, hrep, hrec, if_pos hm,
            List.length_cons]
          omega
        · simp only [updateRowsAux, hconv, ht, if_true, hrep, hrec, if_neg hm,
            List.length_cons]
          omega
      · rw [Bool.not_eq_true] at ht
        rcases hrec : updateRowsAux tax idc (i + 1) rest st with ⟨u, nf, es, st'⟩
        have ih := updateRowsAux_counts tax idc rest (i + 1) st
        rw [hrec] at ih
        simp only at ih
        simp only [updateRowsAux, hconv, ht, Bool.false_eq_true, if_false, hrec,
          List.length_cons]
        omega

/-- C4: the update loop performs, for every valid document, a replace-by-key
on `number` with upsert disabled — a key present in the store has its first
matching document replaced, a key absent from the store increments the
not-found count and leaves the store untouched (nothing is created) — and the
returned result reports updated, not-found and error counts that together
account for every processed row. -/
theorem C4_update_no_upsert (tax : TaxCache) (idc : IdCache) :
    (∀ (st : Store) (key : String) (d : Document),
      (∀ d' ∈ st, d'.number ≠ some key) → replaceOneByNumber st key d = (st, 0)) ∧
    (∀ (pre post : Store) (old d : Document) (key : String),
      (∀ d' ∈ pre, d'.number ≠ some key) → old.number = some key →
      replaceOneByNumber (pre ++ old :: post) key d = (pre ++ d :: post, 1)) ∧
    (∀ (i : Nat) (r : Row) (rest : List Row) (st : Store) (d : Document),
      convert_dataframe_row_to_document tax idc r = .ok d →
      numberTruthy d.number = true →
      (∀ d' ∈ st, d'.number ≠ d.number) →
      updateRowsAux tax idc i (r :: rest) st
        = ((updateRowsAux tax idc (i + 1) rest st).1,
           (updateRowsAux tax idc (i + 1) rest st).2.1 + 1,
           (updateRowsAux tax idc (i + 1) rest st).2.2.1,
           (updateRowsAux tax idc (i + 1) rest st).2.2.2)) ∧
    (∀ (df : DataFrame) (flag : Bool) (st : Store),
      (NPI_Mongo.update tax idc df flag st).1.total_processed = df.rows.length ∧
      (NPI_Mongo.update tax idc df flag st).1.updated_count
          + (NPI_Mongo.update tax idc df flag st).1.not_found_count
          + (NPI_Mongo.update tax idc df flag st).1.errors.length = df.rows.length) := by
  refine ⟨fun st key d h => replaceOne_absent key d st h,
          fun pre post old d key hp ho => replaceOne_present key d old post ho pre hp,
          ?_, ?_⟩
  · intro i r rest st d hconv htr hfresh
    have hkey : replaceOneByNumber st (numberText d.number) d = (st, 0) := by
      refine replaceOne_absent (numberText d.number) d st (fun d' hd' hcon => ?_)
      exact hfresh d' hd' (hcon.trans (numberTruthy_some d.number htr).symm)
    simp [updateRowsAux, hconv, htr, hkey]
  · intro df flag st
    exact ⟨rfl, updateRowsAux_counts _ _ df.rows 0 st⟩

/-- Witness for C4 at a concrete input: updating a one-row batch against a
store that does not hold its key reports one not-found, no update, no error,
and returns the store unchanged. -/
theorem C4_update_no_upsert_witness :
    updateRowsAux [] [] 0 [[("npi", .vfloat 42)]] []
      = ((updateRowsAux [] [] 1 [] []).1, (updateRowsAux [] [] 1 [] []).2.1 + 1,
         (updateRowsAux [] [] 1 [] []).2.2.1, (updateRowsAux [] [] 1 [] []).2.2.2) :=
  (C4_update_no_upsert [] []).2.2.1 0 [("npi", .vfloat 42)] [] []
    { created_epoch := none, enumeration_type := "NPI-2", last_updated_epoch := none,
      number := some "42", addresses := [], practiceLocations := [],
      basic := { first_name := none, last_name := none, middle_name := none,
                 credential := none, sole_proprietor := "NO", sex := none,
                 enumeration_date := none, last_updated := none, status := "A",
                 name_prefix := .vstr "--", name_suffix := .vstr "--",
                 organization_name := none },
      taxonomies := [], identifiers := [], endpoints := [], other_names := [] }
    rfl (by decide) (fun d' hd' => absurd hd' (List.not_mem_nil d'))

/-- A converted document of a row with a missing `npi` cell has a null key. -/
theorem convert_number_none (tax : TaxCache) (idc : IdCache) (r : Row) (d : Document)
    (hnpi : rowGet r "npi" = .vnone)
    (hconv : convert_dataframe_row_to_document tax idc r = .ok d) : d.number = none := by
  have hnum : numberField r = .ok none := by
    unfold numberField
    rw [hnpi]
    rfl
  unfold convert_dataframe_row_to_document at hconv
  rw [hnum] at hconv
  cases ha : extract_addresses r with
  | error e => rw [ha] at hconv; exact absurd hconv (by simp)
  | ok addrs =>
    rw [ha] at hconv
    injection hconv with h'
    rw [← h']

/-- C2 as frozen is false on the code: a row whose `npi` is missing but whose
mapping raises (here `int()` on the non-numeric postal code `x`) is recorded
as a row-mapping error, not as the distinct missing-identifier error, in both
operations. -/
theorem C2_counterexample :
    rowGet [("provider_first_line_business_mailing_address", .vstr "A"),
            ("provider_business_mailing_address_postal_code", .vstr "x")] "npi" = .vnone ∧
    (NPI_Mongo.insert [] []
        { cols := []
          rows := [[("provider_first_line_business_mailing_address", .vstr "A"),
                    ("provider_business_mailing_address_postal_code", .vstr "x")]] }
        false []).1.errors
      = ["Row 0: invalid literal for int() with base 10: x"] ∧
    ¬ "Row 0: Missing NPI number" ∈ (NPI_Mongo.insert [] []
        { cols := []
          rows := [[("provider_first_line_business_mailing_address", .vstr "A"),
                    ("provider_business_mailing_address_postal_code", .vstr "x")]] }
        false []).1.errors ∧
    (NPI_Mongo.update [] []
        { cols := []
          rows := [[("provider_first_line_business_mailing_address", .vstr "A"),
                    ("provider_business_mailing_address_postal_code", .vstr "x")]] }
        false []).1.errors
      = ["Row 0: invalid literal for int() with base 10: x"] := by
  refine ⟨rfl, by decide, by decide, by decide⟩

/-- C2 (amended): for every row whose `npi` is missing and whose mapping does
not itself raise, both the insert mapping loop and the update loop produce no
document for the row, record the distinct error `Row <i>: Missing NPI number`,
and continue with the remaining rows of the batch on an unchanged store. -/
theorem C2_missing_key_skipped (tax : TaxCache) (idc : IdCache) (i : Nat) (r : Row)
    (rest : List Row) (st : Store) (d : Document)
    (hnpi : rowGet r "npi" = .vnone)
    (hconv : convert_dataframe_row_to_document tax idc r = .ok d) :
    processRowsAux tax idc i (r :: rest)
      = ((processRowsAux tax idc (i + 1) rest).1,
         s!"Row {i}: Missing NPI number" :: (processRowsAux tax idc (i + 1) rest).2) ∧
    updateRowsAux tax idc i (r :: rest) st
      = ((updateRowsAux tax idc (i + 1) rest st).1,
         (updateRowsAux tax idc (i + 1) rest st).2.1,
         s!"Row {i}: Missing NPI number" :: (updateRowsAux tax idc (i + 1) rest st).2.2.1,
         (updateRowsAux tax idc (i + 1) rest st).2.2.2) := by
  have hnone : d.number = none := convert_number_none tax idc r d hnpi hconv
  have ht : numberTruthy d.number = false := by rw [hnone]; rfl
  constructor
  · rcases hrec : processRowsAux tax idc (i + 1) rest with ⟨ds, es⟩
    simp only [processRowsAux, hconv, hrec, ht, Bool.false_eq_true, if_false]
  · rcases hrec : updateRowsAux tax idc (i + 1) rest st with ⟨u, nf, es, st2⟩
    simp only [updateRowsAux, hconv, hrec, ht, Bool.false_eq_true, if_false]

/-- Witness for the amended C2: the empty row (its `npi` is missing, its
mapping succeeds) at index 0 with no remaining rows and the empty store. -/
theorem C2_missing_key_skipped_witness :
    processRowsAux [] [] 0 [[]]
      = ((processRowsAux [] [] 1 []).1,
         "Row 0: Missing NPI number" :: (processRowsAux [] [] 1 []).2) :=
  (C2_missing_key_skipped [] [] 0 [] [] []
    { created_epoch := none, enumeration_type := "NPI-2", last_updated_epoch := none,
      number := none, addresses := [], practiceLocations := [],
      basic := { first_name := none, last_name := none, middle_name := none,
                 credential := none, sole_proprietor := "NO", sex := none,
                 enumeration_date := none, last_updated := none, status := "A",
                 name_prefix := .vstr "--", name_suffix := .vstr "--",
                 organization_name := none },
      taxonomies := [], identifiers := [], endpoints := [], other_names := [] }
    rfl rfl).1

/-- A successful one-document insert appends the document. -/
theorem insertOne_ok (st st' : Store) (d : Document) (h : insertOne st d = .ok st') :
    st' = st ++ [d] := by
  unfold insertOne at h
  split at h
  · exact absurd h (by simp)
  · injection h with h'
    exact h'.symm

/-- A successful unordered bulk insert appends every document. -/
theorem insertMany_ok : ∀ (ds : List Document) (st stOk : Store),
    insertManyUnordered st ds = .ok stOk → stOk = st ++ ds
  | [], st, stOk, h => by
    simp only [insertManyUnordered, List.foldlM] at h
    have h' : st = stOk := by injection h
    simp [← h']
  | d :: ds, st, stOk, h => by
    simp only [insertManyUnordered, List.foldlM] at h
    cases hi : insertOne st d with
    | error e =>
      rw [hi] at h
      exact absurd h (by simp [Bind.bind, Except.bind])
    | ok st1 =>
      rw [hi] at h
      have h' : List.foldlM insertOne st1 ds = .ok stOk := h
      have ih := insertMany_ok ds st1 stOk h'
      rw [insertOne_ok st st1 d hi] at ih
      simpa [List.append_assoc] using ih

/-- The fallback records exactly one error per document it fails to insert:
successes and errors together account for every document. -/
theorem fallbackInsert_counts : ∀ (ds : List Document) (st : Store),
    (fallbackInsert st ds).1 + (fallbackInsert st ds).2.1.length = ds.length
  | [], _ => rfl
  | d :: ds, st => by
    cases hi : insertOne st d with
    | ok st1 =>
      rcases hrec : fallbackInsert st1 ds with ⟨n, es, st2⟩
      have ih := fallbackInsert_counts ds st1
      rw [hrec] at ih
      simp only at ih
      simp only [fallbackInsert, hi, hrec, List.length_cons]
      omega
    | error e =>
      rcases hrec : fallbackInsert st ds with ⟨n, es, st2⟩
      have ih := fallbackInsert_counts ds st
      rw [hrec] at ih
      simp only at ih
      simp only [fallbackInsert, hi, hrec, List.length_cons]
      omega

/-- C3: the insert operation reports every processed row; with no valid
documents nothing is written; one unordered bulk insert of all valid
documents is attempted first, and when it succeeds every document is stored
with no fallback error; exactly when the bulk call fails, the documents are
re-inserted one at a time, the result reporting the fallback's count, store,
and one recorded error per individually failing document while the rest
proceed. -/
theorem C3_insert_bulk_fallback (tax : TaxCache) (idc : IdCache) (df : DataFrame) (st : Store) :
    (NPI_Mongo.insert tax idc df false st).1.total_processed = df.rows.length ∧
    ((processRowsAux tax idc 0 df.rows).1 = [] →
      (NPI_Mongo.insert tax idc df false st).1.inserted_count = 0 ∧
      (NPI_Mongo.insert tax idc df false st).1.errors = (processRowsAux tax idc 0 df.rows).2 ∧
      (NPI_Mongo.insert tax idc df false st).2.1 = st) ∧
    (∀ stOk, insertManyUnordered st (processRowsAux tax idc 0 df.rows).1 = .ok stOk →
      (processRowsAux tax idc 0 df.rows).1 ≠ [] →
      (NPI_Mongo.insert tax idc df false st).1.inserted_count
          = (processRowsAux tax idc 0 df.rows).1.length ∧
      (NPI_Mongo.insert tax idc df false st).1.errors = (processRowsAux tax idc 0 df.rows).2 ∧
      (NPI_Mongo.insert tax idc df false st).2.1 = stOk ∧
      stOk = st ++ (processRowsAux tax idc 0 df.rows).1) ∧
    (∀ e, insertManyUnordered st (processRowsAux tax idc 0 df.rows).1 = .error e →
      (NPI_Mongo.insert tax idc df false st).1.inserted_count
          = (fallbackInsert st (processRowsAux tax idc 0 df.rows).1).1 ∧
      (NPI_Mongo.insert tax idc df false st).1.errors
          = (processRowsAux tax idc 0 df.rows).2
              ++ (fallbackInsert st (processRowsAux tax idc 0 df.rows).1).2.1 ∧
      (NPI_Mongo.insert tax idc df false st).2.1
          = (fallbackInsert st (processRowsAux tax idc 0 df.rows).1).2.2) ∧
    (∀ (st0 : Store) (ds : List Document),
      (fallbackInsert st0 ds).1 + (fallbackInsert st0 ds).2.1.length = ds.length) := by
  refine ⟨rfl, ?_, ?_, ?_, fun st0 ds => fallbackInsert_counts ds st0⟩
  · intro hd
    have hemp : (processRowsAux tax idc 0 df.rows).1.isEmpty = true := by
      rw [hd]; rfl
    refine ⟨?_, ?_, ?_⟩ <;> simp [NPI_Mongo.insert, hemp]
  · intro stOk hok hne
    have hemp : (processRowsAux tax idc 0 df.rows).1.isEmpty = false := by
      cases hpr : (processRowsAux tax idc 0 df.rows).1 with
      | nil => exact absurd hpr hne
      | cons a l => rfl
    refine ⟨?_, ?_, ?_, insertMany_ok _ st stOk hok⟩ <;>
      simp [NPI_Mongo.insert, hemp, hok]
  · intro e herr
    have hne : (processRowsAux tax idc 0 df.rows).1 ≠ [] := by
      intro h0
      rw [h0] at herr
      exact absurd herr (by simp [insertManyUnordered, List.foldlM, pure, Except.pure])
    have hemp : (processRowsAux tax idc 0 df.rows).1.isEmpty = false := by
      cases hpr : (processRowsAux tax idc 0 df.rows).1 with
      | nil => exact absurd hpr hne
      | cons a l => rfl
    refine ⟨?_, ?_, ?_⟩ <;> simp [NPI_Mongo.insert, hemp, herr]

/-- Witness for C3 at a concrete duplicate-key batch: the same key twice makes
the bulk call fail; the fallback then inserts one document and records one
duplicate-key error for the other. -/
theorem C3_insert_bulk_fallback_witness :
    (NPI_Mongo.insert [] []
        { cols := [], rows := [[("npi", .vfloat 1)], [("npi", .vfloat 1)]] }
        false []).1.inserted_count
      = (fallbackInsert []
          (processRowsAux [] [] 0 [[("npi", .vfloat 1)], [("npi", .vfloat 1)]]).1).1 ∧
    (NPI_Mongo.insert [] []
        { cols := [], rows := [[("npi", .vfloat 1)], [("npi", .vfloat 1)]] }
        false []).1.inserted_count = 1 ∧
    (NPI_Mongo.insert [] []
        { cols := [], rows := [[("npi", .vfloat 1)], [("npi", .vfloat 1)]] }
        false []).1.errors = ["NPI 1: E11000 duplicate key error"] :=
  ⟨((C3_insert_bulk_fallback [] []
      { cols := [], rows := [[("npi", .vfloat 1)], [("npi", .vfloat 1)]] } []).2.2.2.1
      "E11000 duplicate key error" rfl).1,
   by decide, by decide⟩

/-- Characters of a collapsed-runs output are the replacement character or
class-free characters of the input. -/
theorem collapseRunsAux_chars (p : Char → Bool) (rep : Char) :
    ∀ (b : Bool) (l : List Char) (c : Char), c ∈ collapseRunsAux p rep b l →
      c = rep ∨ (c ∈ l ∧ p c = false) := by
  intro b l
  induction l generalizing b with
  | nil => intro c hc; exact absurd hc (List.not_mem_nil c)
  | cons x l ih =>
    intro c hc
    simp only [collapseRunsAux] at hc
    by_cases hp : p x = true
    · rw [if_pos hp] at hc
      cases b with
      | true =>
        rw [if_pos rfl] at hc
        rcases ih true c hc with h | h
        · exact Or.inl h
        · exact Or.inr ⟨List.mem_cons_of_mem x h.1, h.2⟩
      | false =>
        rw [if_neg (by simp)] at hc
        rcases List.mem_cons.mp hc with h | h
        · exact Or.inl h
        · rcases ih true c h with h2 | h2
          · exact Or.inl h2
          · exact Or.inr ⟨List.mem_cons_of_mem x h2.1, h2.2⟩
    · rw [Bool.not_eq_true] at hp
      rw [if_neg (by simp [hp])] at hc
      rcases List.mem_cons.mp hc with h | h
      · exact Or.inr ⟨h ▸ List.mem_cons_self x l, h ▸ hp⟩
      · rcases ih false c h with h2 | h2
        · exact Or.inl h2
        · exact Or.inr ⟨List.mem_cons_of_mem x h2.1, h2.2⟩

/-- Every character step 4 emits is in the class `[a-zA-Z0-9_]`. -/
theorem alnumStep_word (l : List Char) : ∀ c ∈ alnumStep l, isWordChar c = true := by
  intro c hc
  rcases List.mem_map.mp hc with ⟨x, _, hfx⟩
  by_cases h : isWordChar x = true
  · rw [← hfx]; simp [h]
  · rw [← hfx]; simp [h]; decide

/-- The edge strip keeps only characters of its input. -/
theorem stripChars_subset (p : Char → Bool) (l : List Char) :
    ∀ c ∈ stripChars p l, c ∈ l := by
  intro c hc
  unfold stripChars at hc
  have h1 : c ∈ l.rdropWhile p :=
    (List.dropWhile_suffix p).sublist.subset hc
  have h2 : l.rdropWhile p <+: l := List.rdropWhile_prefix p l
  exact h2.sublist.subset h1

/-- Every character of a fully normalized header is in `[a-zA-Z0-9_]`; in
particular a normalized header never contains a dot. -/
theorem normalizeHeader_word (s : String) :
    ∀ c ∈ (normalizeHeader s).data, isWordChar c = true := by
  intro c hc
  have hc1 : c ∈ undStep (alnumStep (parenStep (wsStep (lowerStep s.data)))) :=
    stripChars_subset isUnd _ c hc
  rcases collapseRunsAux_chars isUnd '_' false _ c hc1 with h | h
  · rw [h]; decide
  · exact alnumStep_word _ c h.1

/-- A dot never survives full header normalization. -/
theorem normalizeHeader_no_dot (s : String) : '.' ∉ (normalizeHeader s).data := by
  intro hc
  have := normalizeHeader_word s '.' hc
  exact absurd this (by decide)

/-- Lookup of a dotted key misses in a row whose keys are all dot-free. -/
theorem rowGet_dotted_none (k : String) (hk : '.' ∈ k.data) :
    ∀ r : Row, (∀ kv ∈ r, '.' ∉ kv.1.data) → rowGet r k = .vnone
  | [], _ => rfl
  | (k', v) :: rest, hr => by
    have hne : k ≠ k' := by
      intro he
      exact hr (k', v) (List.mem_cons_self _ rest) (he ▸ hk)
    unfold rowGet
    rw [lookup_cons, if_neg hne]
    have := rowGet_dotted_none k hk rest (fun kv hkv => hr kv (List.mem_cons_of_mem _ hkv))
    unfold rowGet at this
    exact this

/-- Mailing-address field characterization on success. -/
theorem mailingAddress_country (r : Row) (a : Address) (h : mailingAddress r = .ok a) :
    a.country_code =
      convert_nan_to_none
        (rowGet r "provider_business_mailing_address_country_code_if_outside_u.s.") ∧
    a.country_name =
      (if valueEqStr (rowGet r "provider_business_mailing_address_country_code_if_outside_u.s.")
          "US" then some "United States" else none) := by
  unfold mailingAddress at h
  cases hpf : postalField (rowGet r "provider_business_mailing_address_postal_code") with
  | error e => rw [hpf] at h; exact absurd h (by simp)
  | ok postal =>
    rw [hpf] at h
    injection h with h'
    rw [← h']
    exact ⟨rfl, rfl⟩

/-- Practice-location field characterization on success. -/
theorem locationAddress_country (r : Row) (a : Address) (h : locationAddress r = .ok a) :
    a.country_code =
      convert_nan_to_none
        (rowGet r "provider_business_practice_location_address_country_code_if_outside_u.s.") ∧
    a.country_name =
      (if valueEqStr
          (rowGet r "provider_business_practice_location_address_country_code_if_outside_u.s.")
          "US" then some "United States" else none) := by
  unfold locationAddress at h
  cases hpf : postalField
      (rowGet r "provider_business_practice_location_address_postal_code") with
  | error e => rw [hpf] at h; exact absurd h (by simp)
  | ok postal =>
    rw [hpf] at h
    injection h with h'
    rw [← h']
    exact ⟨rfl, rfl⟩

/-- C10: in the pipeline of the parse command, rows are keyed by fully
normalized headers, which never contain a dot; the mapper reads the
country-code cells under keys containing dots, so the lookup always misses —
every produced address has a null `country_code` and a `country_name` that is
null, in particular never "United States". -/
theorem C10_country_lookup_miss (r : Row)
    (hk : ∀ kv ∈ r, ∃ h0 : String, kv.1 = normalizeHeader h0)
    (addrs : List Address) (ha : extract_addresses r = .ok addrs) :
    (∀ h0 : String, '.' ∉ (normalizeHeader h0).data) ∧
    (∀ a ∈ addrs, a.country_code = none ∧ a.country_name = none ∧
      a.country_name ≠ some "United States") := by
  have hdotfree : ∀ kv ∈ r, '.' ∉ kv.1.data := by
    intro kv hkv
    rcases hk kv hkv with ⟨h0, hh⟩
    rw [hh]
    exact normalizeHeader_no_dot h0
  have hm : rowGet r "provider_business_mailing_address_country_code_if_outside_u.s."
      = .vnone :=
    rowGet_dotted_none _ (by decide) r hdotfree
  have hl : rowGet r "provider_business_practice_location_address_country_code_if_outside_u.s."
      = .vnone :=
    rowGet_dotted_none _ (by decide) r hdotfree
  refine ⟨normalizeHeader_no_dot, ?_⟩
  intro a hmem
  unfold extract_addresses at ha
  cases hx : (if pdIsna (rowGet r "provider_first_line_business_mailing_address") then .ok []
      else (mailingAddress r).map (fun a => [a]) : Except String (List Address)) with
  | error e => rw [hx] at ha; exact absurd ha (by simp)
  | ok a1 =>
    cases hy : (if pdIsna (rowGet r "provider_first_line_business_practice_location_address")
        then .ok [] else (locationAddress r).map (fun a => [a]) : Except String (List Address)) with
    | error e => rw [hx, hy] at ha; exact absurd ha (by simp)
    | ok a2 =>
      rw [hx, hy] at ha
      injection ha with ha'
      subst ha'
      have hone : ∀ (b : Address), a = b →
          b.country_code =
            convert_nan_to_none
              (rowGet r "provider_business_mailing_address_country_code_if_outside_u.s.") →
          b.country_name =
            (if valueEqStr
                (rowGet r "provider_business_mailing_address_country_code_if_outside_u.s.")
                "US" then some "United States" else none) →
          a.country_code = none ∧ a.country_name = none ∧
            a.country_name ≠ some "United States" := by
        intro b hab hcc hcn
        subst hab
        rw [hm] at hcc hcn
        have hcc2 : a.country_code = none := by
          simpa [convert_nan_to_none, pdIsna] using hcc
        have hcn2 : a.country_name = none := by
          simpa [valueEqStr] using hcn
        refine ⟨hcc2, hcn2, by rw [hcn2]; simp⟩
      rcases List.mem_append.mp hmem with hmem1 | hmem2
      · -- a came from the mailing block
        by_cases hisna : pdIsna (rowGet r "provider_first_line_business_mailing_address") = true
        · rw [if_pos hisna] at hx
          injection hx with hx'
          rw [← hx'] at hmem1
          exact absurd hmem1 (List.not_mem_nil a)
        · rw [Bool.not_eq_true] at hisna
          rw [if_neg (by simp [hisna])] at hx
          cases hma : mailingAddress r with
          | error e => rw [hma] at hx; exact absurd hx (by simp [Except.map])
          | ok m =>
            rw [hma] at hx
            have hx' : a1 = [m] := by
              simpa [Except.map] using hx.symm
            rw [hx'] at hmem1
            have ham : a = m := List.mem_singleton.mp hmem1
            have hmc := mailingAddress_country r m hma
            exact hone m ham (ham ▸ hmc.1) (ham ▸ hmc.2)
      · -- a came from the practice-location block
        by_cases hisna :
            pdIsna (rowGet r "provider_first_line_business_practice_location_address") = true
        · rw [if_pos hisna] at hy
          injection hy with hy'
          rw [← hy'] at hmem2
          exact absurd hmem2 (List.not_mem_nil a)
        · rw [Bool.not_eq_true] at hisna
          rw [if_neg (by simp [hisna])] at hy
          cases hla : locationAddress r with
          | error e => rw [hla] at hy; exact absurd hy (by simp [Except.map])
          | ok m =>
            rw [hla] at hy
            have hy' : a2 = [m] := by
              simpa [Except.map] using hy.symm
            rw [hy'] at hmem2
            have ham : a = m := List.mem_singleton.mp hmem2
            have hmc := locationAddress_country r m hla
            have hcc := ham ▸ hmc.1
            have hcn := ham ▸ hmc.2
            rw [hl] at hcc hcn
            have hcc2 : a.country_code = none := by
              simpa [convert_nan_to_none, pdIsna] using hcc
            have hcn2 : a.country_name = none := by
              simpa [valueEqStr] using hcn
            exact ⟨hcc2, hcn2, by rw [hcn2]; simp⟩

/-- Witness for C10: a row keyed by the normalized mailing-address header
yields one mailing address whose country fields are null. -/
theorem C10_country_lookup_miss_witness :
    ({ country_code := none, country_name := none, address_purpose := "MAILING",
       address_type := "DOM", address_1 := some (.vstr "123 Main St"), address_2 := none,
       city := none, state := none, postal_code := none, telephone_number := none,
       fax_number := none } : Address).country_code = none ∧
    ({ country_code := none, country_name := none, address_purpose := "MAILING",
       address_type := "DOM", address_1 := some (.vstr "123 Main St"), address_2 := none,
       city := none, state := none, postal_code := none, telephone_number := none,
       fax_number := none } : Address).country_name ≠ some "United States" := by
  have h := (C10_country_lookup_miss
      [("provider_first_line_business_mailing_address", .vstr "123 Main St")]
      (fun kv hkv => ⟨"Provider First Line Business Mailing Address", by
        have hk := List.mem_singleton.mp hkv
        rw [hk]
        decide⟩)
      [{ country_code := none, country_name := none, address_purpose := "MAILING",
         address_type := "DOM", address_1 := some (.vstr "123 Main St"), address_2 := none,
         city := none, state := none, postal_code := none, telephone_number := none,
         fax_number := none }]
      rfl).2 _ (List.mem_singleton.mpr rfl)
  exact ⟨h.1, h.2.2⟩

/-- Characters with equal code points are equal. -/
theorem char_eq_of_toNat (c d : Char) (h : c.toNat = d.toNat) : c = d := by
  apply Char.ext
  apply UInt32.ext
  have h2 : c.val.toNat = d.val.toNat := h
  omega

/-- Case folding fixes every non-uppercase character. -/
theorem toLower_fix (c : Char) (h : notUpper c = true) : Char.toLower c = c := by
  have h2 : ¬(c.toNat ≥ 65 ∧ c.toNat ≤ 90) := by
    intro hcon
    have hb : (65 ≤ c.toNat && c.toNat ≤ 90) = true := by
      simp [hcon.1, hcon.2]
    simp [notUpper, hb] at h
  simp only [Char.toLower, if_neg h2]

/-- Case folding never produces an uppercase character. -/
theorem toLower_notUpper (c : Char) : notUpper (Char.toLower c) = true := by
  by_cases h : c.toNat ≥ 65 ∧ c.toNat ≤ 90
  · have hv : (c.toNat + 32).isValidChar := Or.inl (by omega)
    have ht : (Char.toLower c).toNat = c.toNat + 32 := by
      simp only [Char.toLower, if_pos h]
      simp only [Char.ofNat, dif_pos hv]
      simp [Char.ofNatAux, Char.toNat, UInt32.toNat, BitVec.toNat_ofNatLt]
    simp only [notUpper, ht, Bool.not_eq_eq_eq_not, Bool.not_true, Bool.and_eq_false_imp,
      decide_eq_true_eq, decide_eq_false_iff_not]
    omega
  · have ht : Char.toLower c = c := by simp only [Char.toLower, if_neg h]
    rw [ht]
    simp only [notUpper, Bool.not_eq_eq_eq_not, Bool.not_true, Bool.and_eq_false_imp,
      decide_eq_true_eq, decide_eq_false_iff_not]
    omega

/-- Step 1 leaves no uppercase character. -/
theorem lowerStep_notUpper (l : List Char) : ∀ c ∈ lowerStep l, notUpper c = true := by
  intro c hc
  rcases List.mem_map.mp hc with ⟨x, _, hfx⟩
  exact hfx ▸ toLower_notUpper x

/-- Run collapsing preserves any character class holding for the replacement. -/
theorem collapseRunsAux_class (p : Char → Bool) (rep : Char) (Q : Char → Bool)
    (hrep : Q rep = true) (b : Bool) (l : List Char) (hl : ∀ c ∈ l, Q c = true) :
    ∀ c ∈ collapseRunsAux p rep b l, Q c = true := by
  intro c hc
  rcases collapseRunsAux_chars p rep b l c hc with h | h
  · rw [h]; exact hrep
  · exact hl c h.1

/-- Step 4 preserves any character class holding for the underscore. -/
theorem alnumStep_class (Q : Char → Bool) (hund : Q '_' = true) (l : List Char)
    (hl : ∀ c ∈ l, Q c = true) : ∀ c ∈ alnumStep l, Q c = true := by
  intro c hc
  rcases List.mem_map.mp hc with ⟨x, hx, hfx⟩
  by_cases h : isWordChar x = true
  · rw [← hfx, if_pos h]; exact hl x hx
  · rw [← hfx, if_neg h]; exact hund

/-- Every character after steps 1-4 is canonical. -/
theorem alnum_pipeline_canon (s : String) :
    ∀ c ∈ alnumStep (parenStep (wsStep (lowerStep s.data))), isCanonChar c = true := by
  intro c hc
  have hword := alnumStep_word _ c hc
  have hnup : notUpper c = true := by
    refine alnumStep_class notUpper (by decide) _ ?_ c hc
    intro c2 hc2
    have hc3 := (List.mem_filter.mp hc2).1
    exact collapseRunsAux_class pyIsSpace '_' notUpper (by decide) false _
      (lowerStep_notUpper s.data) c2 hc3
  simp [isCanonChar, hword, hnup]

/-- Run collapsing leaves no adjacent pair of class characters, and in run
state its output starts with a class-free character. -/
theorem collapseRunsAux_noRun (p : Char → Bool) (rep : Char) :
    ∀ (l : List Char) (b : Bool),
      NoRun p (collapseRunsAux p rep b l) ∧
      (b = true → ∀ c, (collapseRunsAux p rep b l).head? = some c → p c = false) := by
  intro l
  induction l with
  | nil =>
    intro b
    exact ⟨List.chain'_nil, fun _ c hc => by simp [collapseRunsAux] at hc⟩
  | cons x l ih =>
    intro b
    by_cases hp : p x = true
    · cases b with
      | true =>
        have heq : collapseRunsAux p rep true (x :: l) = collapseRunsAux p rep true l := by
          simp [collapseRunsAux, hp]
        constructor
        · rw [heq]; exact (ih true).1
        · intro _ c hc
          rw [heq] at hc
          exact (ih true).2 rfl c hc
      | false =>
        have heq : collapseRunsAux p rep false (x :: l)
            = rep :: collapseRunsAux p rep true l := by
          simp [collapseRunsAux, hp]
        constructor
        · rw [heq]
          refine List.chain'_cons'.mpr ⟨?_, (ih true).1⟩
          intro y hy hcon
          have := (ih true).2 rfl y hy
          rw [this] at hcon
          exact absurd hcon.2 (by simp)
        · intro hb
          exact absurd hb (by simp)
    · have heq : ∀ b2 : Bool, collapseRunsAux p rep b2 (x :: l)
          = x :: collapseRunsAux p rep false l := by
        intro b2
        rw [Bool.not_eq_true] at hp
        cases b2 <;> simp [collapseRunsAux, hp]
      constructor
      · rw [heq b]
        refine List.chain'_cons'.mpr ⟨?_, (ih false).1⟩
        intro y _ hcon
        rw [Bool.not_eq_true] at hp
        rw [hp] at hcon
        exact absurd hcon.1 (by simp)
      · intro _ c hc
        rw [heq b] at hc
        have hcx : c = x := by
          have h2 : x = c := by simpa using hc
          exact h2.symm
        rw [Bool.not_eq_true] at hp
        exact hcx ▸ hp

/-- No-run predicates survive the edge strip. -/
theorem NoRun_stripChars (p q : Char → Bool) (l : List Char) (h : NoRun p l) :
    NoRun p (stripChars q l) := by
  have h2 : l.rdropWhile q <+: l := List.rdropWhile_prefix q l
  have h3 : NoRun p (l.rdropWhile q) := List.Chain'.prefix h h2
  exact List.Chain'.suffix h3 (List.dropWhile_suffix q)

/-- The head of a leading strip never satisfies the stripped class. -/
theorem dropWhile_head_not (p : Char → Bool) :
    ∀ (l : List Char) (c : Char), (l.dropWhile p).head? = some c → p c = false
  | [], c, hc => by simp [List.dropWhile] at hc
  | x :: l, c, hc => by
    by_cases h : p x = true
    · rw [List.dropWhile_cons_of_pos h] at hc
      exact dropWhile_head_not p l c hc
    · rw [List.dropWhile_cons_of_neg h] at hc
      have hcx : x = c := by simpa using hc
      rw [Bool.not_eq_true] at h
      exact hcx ▸ h

/-- The last entry of a nonempty suffix is the last entry of the whole list. -/
theorem suffix_getLast? {l l2 : List Char} (h : l2 <:+ l) (hne : l2 ≠ []) :
    l2.getLast? = l.getLast? := by
  rcases h with ⟨t, rfl⟩
  rw [List.getLast?_append, List.getLast?_eq_getLast l2 hne]
  rfl

/-- The last character after the edge strip never satisfies the stripped
class. -/
theorem stripChars_getLast_not (q : Char → Bool) (l : List Char) :
    ∀ c, (stripChars q l).getLast? = some c → q c = false := by
  intro c hc
  have hne : stripChars q l ≠ [] := by
    intro h0
    rw [h0] at hc
    simp at hc
  have hsuf : stripChars q l <:+ l.rdropWhile q := List.dropWhile_suffix q
  have hne2 : l.rdropWhile q ≠ [] := by
    intro h0
    rw [h0] at hsuf
    exact hne (List.suffix_nil.mp hsuf)
  have heq := suffix_getLast? hsuf hne
  rw [heq, List.getLast?_eq_getLast _ hne2] at hc
  have hlast := List.rdropWhile_last_not q l hne2
  injection hc with hc2
  rw [Bool.not_eq_true] at hlast
  exact hc2 ▸ hlast

/-- The fully normalized header is in canonical form. -/
theorem normalizeHeader_canon (s : String) : CanonList (normalizeHeader s).data := by
  refine ⟨?_, ?_, ?_, ?_⟩
  · intro c hc
    have hc1 : c ∈ undStep (alnumStep (parenStep (wsStep (lowerStep s.data)))) :=
      stripChars_subset isUnd _ c hc
    exact collapseRunsAux_class isUnd '_' isCanonChar (by decide) false _
      (alnum_pipeline_canon s) c hc1
  · exact NoRun_stripChars isUnd isUnd _ ((collapseRunsAux_noRun isUnd '_' _ false).1)
  · intro c hc
    exact dropWhile_head_not isUnd _ c hc
  · intro c hc
    exact stripChars_getLast_not isUnd _ c hc

/-- A map whose function fixes every entry is the identity. -/
theorem mapSelf {f : Char → Char} : ∀ l : List Char, (∀ c ∈ l, f c = c) → l.map f = l
  | [], _ => rfl
  | c :: l, h => by
    rw [List.map_cons, h c (List.mem_cons_self c l),
      mapSelf l (fun x hx => h x (List.mem_cons_of_mem c hx))]

/-- A list without class characters has no class run. -/
theorem noRun_of_none (p : Char → Bool) : ∀ l : List Char, (∀ c ∈ l, p c = false) → NoRun p l
  | [], _ => List.chain'_nil
  | x :: l, h =>
    List.chain'_cons'.mpr
      ⟨fun _ _ hcon => by
        have hx := h x (List.mem_cons_self x l)
        rw [hx] at hcon
        exact absurd hcon.1 (by simp),
       noRun_of_none p l (fun c hc => h c (List.mem_cons_of_mem x hc))⟩

/-- Run collapsing is the identity on a list whose class characters all equal
the replacement, hold no run, and (in run state) do not lead the list. -/
theorem collapseRunsAux_id (p : Char → Bool) (rep : Char) :
    ∀ (l : List Char) (b : Bool), (∀ c ∈ l, p c = true → c = rep) → NoRun p l →
      (b = true → ∀ c, l.head? = some c → p c = false) →
      collapseRunsAux p rep b l = l := by
  intro l
  induction l with
  | nil => intro b _ _ _; rfl
  | cons x l ih =>
    intro b helem hrun hhead
    by_cases hp : p x = true
    · have hb : b = false := by
        cases b with
        | false => rfl
        | true =>
          have := hhead rfl x rfl
          rw [this] at hp
          exact absurd hp (by simp)
      subst hb
      have hxrep : x = rep := helem x (List.mem_cons_self x l) hp
      have htail : collapseRunsAux p rep true l = l := by
        refine ih true (fun c hc h => helem c (List.mem_cons_of_mem x hc) h)
          ((List.chain'_cons'.mp hrun).2) ?_
        intro _ c hc
        have hpair := (List.chain'_cons'.mp hrun).1 c hc
        by_cases h : p c = true
        · exact absurd ⟨hp, h⟩ hpair
        · rw [Bool.not_eq_true] at h
          exact h
      simp only [collapseRunsAux, hp]
      simp [htail, hxrep]
    · have htail : collapseRunsAux p rep false l = l :=
        ih false (fun c hc h => helem c (List.mem_cons_of_mem x hc) h)
          ((List.chain'_cons'.mp hrun).2) (fun h => absurd h (by simp))
      rw [Bool.not_eq_true] at hp
      cases b <;> simp [collapseRunsAux, hp, htail]

/-- A leading strip is the identity when the head is class-free. -/
theorem dropWhile_id_of_head (p : Char → Bool) :
    ∀ l : List Char, (∀ c, l.head? = some c → p c = false) → l.dropWhile p = l
  | [], _ => rfl
  | x :: l, h => by
    have hx := h x rfl
    simp [List.dropWhile, hx]

/-- A trailing strip is the identity when the last entry is class-free. -/
theorem rdropWhile_id_of_last (p : Char → Bool) (l : List Char)
    (h : ∀ c, l.getLast? = some c → p c = false) : l.rdropWhile p = l := by
  rw [List.rdropWhile_eq_self_iff]
  intro hl
  have := h (l.getLast hl) (List.getLast?_eq_getLast l hl)
  simp [this]

/-- The edge strip is the identity when neither edge is class-bound. -/
theorem stripChars_id (p : Char → Bool) (l : List Char)
    (hh : ∀ c, l.head? = some c → p c = false)
    (hl : ∀ c, l.getLast? = some c → p c = false) : stripChars p l = l := by
  unfold stripChars
  rw [rdropWhile_id_of_last p l hl]
  exact dropWhile_id_of_head p l hh

/-- Canonical characters are not whitespace. -/
theorem canon_not_space (c : Char) (h : isCanonChar c = true) : pyIsSpace c = false := by
  simp only [isCanonChar, isWordChar, notUpper, Bool.and_eq_true, Bool.or_eq_true,
    Bool.not_eq_eq_eq_not, Bool.not_true, Bool.and_eq_false_imp,
    decide_eq_true_eq, decide_eq_false_iff_not] at h
  simp only [pyIsSpace, Bool.or_eq_false_iff, decide_eq_false_iff_not]
  omega

/-- Canonical characters are not parentheses. -/
theorem canon_not_paren (c : Char) (h : isCanonChar c = true) : isParen c = false := by
  simp only [isCanonChar, isWordChar, notUpper, Bool.and_eq_true, Bool.or_eq_true,
    Bool.not_eq_eq_eq_not, Bool.not_true, Bool.and_eq_false_imp,
    decide_eq_true_eq, decide_eq_false_iff_not] at h
  simp only [isParen, Bool.or_eq_false_iff, decide_eq_false_iff_not]
  omega

/-- Canonical characters are in the `[a-zA-Z0-9_]` class. -/
theorem canon_word (c : Char) (h : isCanonChar c = true) : isWordChar c = true :=
  (Bool.and_eq_true _ _).mp h |>.1

/-- Canonical characters are not uppercase. -/
theorem canon_notUpper (c : Char) (h : isCanonChar c = true) : notUpper c = true :=
  (Bool.and_eq_true _ _).mp h |>.2

/-- An underscore-class character is the underscore. -/
theorem isUnd_eq (c : Char) (h : isUnd c = true) : c = '_' := by
  have h2 : c.toNat = 95 := by
    simpa [isUnd, decide_eq_true_eq] using h
  exact char_eq_of_toNat c '_' (by rw [h2]; decide)

/-- Full normalization is the identity on a canonical character list. -/
theorem normalizeHeader_id_of_canon (l : List Char) (hc : CanonList l) :
    (normalizeHeader ⟨l⟩).data = l := by
  rcases hc with ⟨hall, hrun, hhead, hlast⟩
  have hlower : lowerStep l = l :=
    mapSelf l (fun c hcm => toLower_fix c (canon_notUpper c (hall c hcm)))
  have hws : wsStep l = l := by
    unfold wsStep
    refine collapseRunsAux_id pyIsSpace '_' l false ?_ ?_ (fun h => absurd h (by simp))
    · intro c hcm hsp
      have := canon_not_space c (hall c hcm)
      rw [this] at hsp
      exact absurd hsp (by simp)
    · exact noRun_of_none pyIsSpace l (fun c hcm => canon_not_space c (hall c hcm))
  have hparen : parenStep l = l := by
    unfold parenStep
    refine List.filter_eq_self.mpr (fun c hcm => ?_)
    rw [canon_not_paren c (hall c hcm)]
    rfl
  have halnum : alnumStep l = l := by
    unfold alnumStep
    refine mapSelf l (fun c hcm => ?_)
    rw [if_pos (canon_word c (hall c hcm))]
  have hund : undStep l = l := by
    unfold undStep
    exact collapseRunsAux_id isUnd '_' l false (fun c _ h => isUnd_eq c h) hrun
      (fun h => absurd h (by simp))
  have hstrip : stripChars isUnd l = l := by
    refine stripChars_id isUnd l ?_ ?_
    · intro c hcm
      exact hhead c hcm
    · intro c hcm
      exact hlast c hcm
  show stripChars isUnd (undStep (alnumStep (parenStep (wsStep (lowerStep
    (String.data ⟨l⟩)))))) = l
  show stripChars isUnd (undStep (alnumStep (parenStep (wsStep (lowerStep l))))) = l
  rw [hlower, hws, hparen, halnum, hund, hstrip]

/-- Step 2 leaves no whitespace. -/
theorem wsStep_no_space (l : List Char) : ∀ c ∈ wsStep l, pyIsSpace c = false := by
  intro c hc
  rcases collapseRunsAux_chars pyIsSpace '_' false l c hc with h | h
  · rw [h]; decide
  · exact h.2

/-- The simply normalized header is in its canonical form. -/
theorem normalizeHeaderSimple_canon (s : String) :
    CanonSimpleList (normalizeHeaderSimple s).data := by
  intro c hc
  have hmem := List.mem_filter.mp hc
  refine ⟨?_, ?_, ?_⟩
  · exact collapseRunsAux_class pyIsSpace '_' notUpper (by decide) false _
      (lowerStep_notUpper s.data) c hmem.1
  · exact wsStep_no_space _ c hmem.1
  · simpa using hmem.2

/-- Simple normalization is the identity on its canonical lists. -/
theorem normalizeHeaderSimple_id_of_canon (l : List Char) (hc : CanonSimpleList l) :
    (normalizeHeaderSimple ⟨l⟩).data = l := by
  have hlower : lowerStep l = l := mapSelf l (fun c hcm => toLower_fix c (hc c hcm).1)
  have hws : wsStep l = l := by
    unfold wsStep
    refine collapseRunsAux_id pyIsSpace '_' l false ?_ ?_ (fun h => absurd h (by simp))
    · intro c hcm hsp
      rw [(hc c hcm).2.1] at hsp
      exact absurd hsp (by simp)
    · exact noRun_of_none pyIsSpace l (fun c hcm => (hc c hcm).2.1)
  have hparen : parenStep l = l := by
    unfold parenStep
    refine List.filter_eq_self.mpr (fun c hcm => ?_)
    rw [(hc c hcm).2.2]
    rfl
  show parenStep (wsStep (lowerStep l)) = l
  rw [hlower, hws, hparen]

/-- C6: both column normalizers are idempotent on every header string;
`Provider First Name` normalizes to `provider_first_name` under both; and the
long parenthesized country-code header maps, under each normalizer, to a
token with no parenthesis and no repeated underscore. -/
theorem C6_normalize_idempotent :
    (∀ h : String, normalizeHeader (normalizeHeader h) = normalizeHeader h) ∧
    (∀ h : String, normalizeHeaderSimple (normalizeHeaderSimple h) = normalizeHeaderSimple h) ∧
    normalizeHeader "Provider First Name" = "provider_first_name" ∧
    normalizeHeaderSimple "Provider First Name" = "provider_first_name" ∧
    (normalizeHeader "Provider Business Mailing Address Country Code (if outside U.S.)"
        = "provider_business_mailing_address_country_code_if_outside_u_s" ∧
      '(' ∉ (normalizeHeader
        "Provider Business Mailing Address Country Code (if outside U.S.)").data ∧
      ')' ∉ (normalizeHeader
        "Provider Business Mailing Address Country Code (if outside U.S.)").data ∧
      hasUndRun (normalizeHeader
        "Provider Business Mailing Address Country Code (if outside U.S.)").data = false) ∧
    (normalizeHeaderSimple "Provider Business Mailing Address Country Code (if outside U.S.)"
        = "provider_business_mailing_address_country_code_if_outside_u.s." ∧
      '(' ∉ (normalizeHeaderSimple
        "Provider Business Mailing Address Country Code (if outside U.S.)").data ∧
      ')' ∉ (normalizeHeaderSimple
        "Provider Business Mailing Address Country Code (if outside U.S.)").data ∧
      hasUndRun (normalizeHeaderSimple
        "Provider Business Mailing Address Country Code (if outside U.S.)").data = false) := by
  refine ⟨?_, ?_, by decide, by decide, ⟨by decide, by decide, by decide, by decide⟩,
    ⟨by decide, by decide, by decide, by decide⟩⟩
  · intro h
    have hid := normalizeHeader_id_of_canon (normalizeHeader h).data (normalizeHeader_canon h)
    have hs : (⟨(normalizeHeader h).data⟩ : String) = normalizeHeader h := rfl
    rw [hs] at hid
    exact String.ext hid
  · intro h
    have hid := normalizeHeaderSimple_id_of_canon (normalizeHeaderSimple h).data
      (normalizeHeaderSimple_canon h)
    have hs : (⟨(normalizeHeaderSimple h).data⟩ : String) = normalizeHeaderSimple h := rfl
    rw [hs] at hid
    exact String.ext hid
